import Mathlib

/-!
# egw-scale-tests components: prober (`RunClient`) and collector (`getResultHandler`)

A shallow embedding of `pkg/client.go` and `pkg/metrics-server.go`.

Conventions used throughout:

* Clock readings and durations are integers counting nanoseconds, as Go's
  `time.Duration` does. Readings are those of the monotonic clock; the differences
  taken stay far from the range at which `Time.Sub` saturates.
* A `float64` is represented by the rational number it stands for. Every
  operation that produces a `float64` (a conversion from an integer, a division, a
  sum) rounds its exact result with `float64`, to the nearest number with 53
  significant bits, ties to the even significand. The exponent range is not
  limited: all values met here lie between `1e-9` and `2^64`.
* `numMissed` is a Go `int`. It grows by one per completed dial, so it is
  embedded as an unbounded integer.
* The network, the clock and the process environment are inputs: a `World`
  fixes what every dial, read, sleep and HTTP round trip does.  `RunClient` is a
  pure function of the configuration and the world that also returns the list of
  effects it performed, in order.
* The retry loop of `RunClient` has no bound in the source; the embedding takes
  a fuel argument and returns `none` when the fuel is used up.
* Library code is embedded as far as the program's behaviour depends on it:
  `http.Post` of `net/http` with the redirect policy of the default client, and
  the counter of the Prometheus client with its 64-bit accumulator.
-/

namespace Scaffolding

/-! ## Data model -/

/-- Modelled from the spec: the `Result` struct is declared in a file of package `pkg`
that is not among the sources. Its three fields and their types are fixed by the
uses in `client.go` (`numMissed` is an `int`, `Duration.Seconds` a `float64`) and by
the JSON body of section 6 of the spec. -/
structure Result where
  ClientID : String
  NumFailedRequests : Int
  MasqueradeDelay : ℚ
  deriving DecidableEq

/-- Type `ClientConfig` of `client.go`. -/
structure ClientConfig where
  ExternalTargetAddr : String
  MetricsServerAddr : String
  deriving DecidableEq

/-! ## Floating point -/

/-- Rounding of a rational to the nearest integer, ties to the even one. -/
def roundHalfEven (t : ℚ) : ℤ :=
  if t - ⌊t⌋ < 1 / 2 then ⌊t⌋
  else if 1 / 2 < t - ⌊t⌋ then ⌊t⌋ + 1
  else if ⌊t⌋ % 2 = 0 then ⌊t⌋ else ⌊t⌋ + 1

/-- Rounding of a positive rational to 53 significant bits: with `e` the exponent
of `x` (`2^e ≤ x < 2^(e+1)`), the result is the multiple of `2^(e-52)` nearest to
`x`. -/
def roundPos (x : ℚ) : ℚ :=
  (roundHalfEven (x / 2 ^ (Int.log 2 x - 52)) : ℚ) * 2 ^ (Int.log 2 x - 52)

/-- The `float64` nearest to the rational `x` (round to nearest, ties to even): the
value Go computes for a conversion or an arithmetic operation whose exact result
is `x`. -/
def float64 (x : ℚ) : ℚ :=
  if 0 < x then roundPos x else if x < 0 then -roundPos (-x) else 0

/-! ## Time -/

/-- Constant `time.Millisecond`, in nanoseconds. -/
def Millisecond : Int := 1000000

/-- Constant `time.Second`, in nanoseconds. -/
def Second : Int := 1000000000

/-- Method `Time.Sub` on two clock readings: the duration `t - u`. -/
def Sub (t u : Int) : Int := t - u

/-- Method `Duration.Seconds` of package `time`:
`sec := d / Second; nsec := d % Second; return float64(sec) + float64(nsec)/1e9`,
with Go's truncating division and remainder and a rounding at each of the two
conversions, the division and the sum. -/
def Seconds (d : Int) : ℚ :=
  float64 (float64 ((Int.tdiv d Second : Int) : ℚ)
    + float64 (float64 ((Int.tmod d Second : Int) : ℚ) / 1000000000))

/-- The fixed backoff `50 * time.Millisecond` passed to `time.Sleep`. -/
def backoff : Int := 50 * Millisecond

/-! ## The world the prober runs in -/

/-- Error returned by `ReadString`: `io.EOF` or anything else. -/
inductive ReadError where
  | EOF
  | other (msg : String)
  deriving DecidableEq

/-- The test `err != nil && !errors.Is(err, io.EOF)` of `client.go:59`. -/
def fatalRead : Option ReadError → Bool
  | none => false
  | some ReadError.EOF => false
  | some (ReadError.other _) => true

/-- What `d.Dial` followed by `ReadString` does on one attempt: the dial fails with
an error, or it yields a connection on which `ReadString` returns `reply` and
`readErr`. -/
inductive DialResult where
  | failed (err : String)
  | connected (reply : String) (readErr : Option ReadError)
  deriving DecidableEq

/-- One iteration of the retry loop as the environment determines it. The three
durations are the time that passes during `time.Sleep` (when it is called), during
`d.Dial`, and from the clock reading at line 52 to the end of the iteration. -/
structure Attempt where
  sleepTook : Int
  dialTook : Int
  dial : DialResult
  readTook : Int

/-- An HTTP request as the client puts it on the wire: method, address, and the
`Result` whose JSON text is the body (`none` when no body is sent). -/
structure HTTPRequest where
  Method : String
  URL : String
  body : Option Result
  deriving DecidableEq

/-- The `Location` header of a response: missing, not parseable as an address, or
the address it resolves to. -/
inductive LocationHeader where
  | absent
  | invalid
  | target (url : String)
  deriving DecidableEq

/-- The parts of an HTTP response the client looks at. -/
structure HTTPResponse where
  StatusCode : Int
  Location : LocationHeader
  deriving DecidableEq

/-- One round trip: the transport fails, or a response comes back. -/
inductive RoundTrip where
  | failed (err : String)
  | response (resp : HTTPResponse)
  deriving DecidableEq

/-- Outcome of `http.Post`: a non-nil error, or a response with a status code. -/
inductive PostResult where
  | failed (err : String)
  | response (StatusCode : Int)
  deriving DecidableEq

/-- Everything outside the code of the prober. `startClock` is the reading of
`time.Now` at line 44, `attempts i` describes loop iteration `i` (counted from 0),
`urlParses` tells whether `url.Parse` accepts an address, and `collector k req` is
the round trip of `req` when it is request number `k` (counted from 0) of the call
of `http.Post`. -/
structure World where
  POD_NAME : String
  POD_NAMESPACE : String
  startClock : Int
  attempts : Nat → Attempt
  urlParses : String → Bool
  collector : Nat → HTTPRequest → RoundTrip

/-- Effects of the prober that are visible from outside. A `request` is a round trip
the HTTP client starts, whether or not the transport completes it. -/
inductive Event where
  | sleep (d : Int)
  | dial (addr : String)
  | readLine
  | close
  | request (req : HTTPRequest)
  deriving DecidableEq

/-- Errors `RunClient` returns. -/
inductive ClientError where
  | podNameNotSet
  | podNamespaceNotSet
  | dial (err : String)
  | read (err : ReadError)
  | submit (err : String)
  | unexpectedStatus (code : Int)
  deriving DecidableEq

/-- Local variables of `RunClient` that change in the loop, the clock, and the
effects so far. -/
structure LoopState where
  numMissed : Int
  endTime : Int
  now : Int
  trace : List Event

/-- The `for` loop of `client.go:46-76`, started at iteration `i`. The result is
`none` when the fuel runs out, otherwise the error the function returns from inside
the loop (`some e`) or `none` for the `break`, with the state at that point. -/
def probeLoop (cfg : ClientConfig) (w : World) :
    Nat → Nat → LoopState → Option (Option ClientError × LoopState)
  | 0, _, _ => none
  | fuel + 1, i, s =>
    let a := w.attempts i
    -- if numMissed > 0 { time.Sleep(50 * time.Millisecond) }
    let s1 : LoopState :=
      if s.numMissed > 0 then
        { s with now := s.now + a.sleepTook, trace := s.trace ++ [Event.sleep backoff] }
      else s
    -- conn, err = d.Dial("tcp4", cfg.ExternalTargetAddr); endTime = time.Now()
    let s2 : LoopState :=
      { s1 with
        now := s1.now + a.dialTook
        endTime := s1.now + a.dialTook
        trace := s1.trace ++ [Event.dial cfg.ExternalTargetAddr] }
    match a.dial with
    | DialResult.failed e => some (some (ClientError.dial e), s2)
    | DialResult.connected reply readErr =>
      -- reply, err := bufio.NewReader(conn).ReadString('\n'), then conn.Close()
      let s3 : LoopState :=
        { s2 with
          now := s2.now + a.readTook
          trace := s2.trace ++ [Event.readLine, Event.close] }
      match readErr with
      | some (ReadError.other m) => some (some (ClientError.read (ReadError.other m)), s3)
      | _ =>
        if reply ≠ "pong\n" then
          probeLoop cfg w fuel (i + 1) { s3 with numMissed := s3.numMissed + 1 }
        else
          some (none, s3)

/-- Function `redirectBehavior` of `net/http`, for a request whose body can be sent
again (`http.Post` with a `bytes.Buffer` sets `GetBody`): `none` when the response
is not followed, otherwise the method of the next request and whether it carries
the body. 301, 302 and 303 turn every method but GET and HEAD into GET and drop the
body; 307 and 308 keep method and body and need a `Location`. -/
def redirectBehavior (reqMethod : String) (resp : HTTPResponse) : Option (String × Bool) :=
  if resp.StatusCode = 301 ∨ resp.StatusCode = 302 ∨ resp.StatusCode = 303 then
    some (if reqMethod ≠ "GET" ∧ reqMethod ≠ "HEAD" then "GET" else reqMethod, false)
  else if resp.StatusCode = 307 ∨ resp.StatusCode = 308 then
    if resp.Location = LocationHeader.absent then none else some (reqMethod, true)
  else none

/-- The request loop of the default `http.Client` (`Client.do`). `budget` is the
number of requests the default redirect policy still allows (ten in all: "stopped
after 10 redirects"), `k` the number of requests already sent, `includeBody` whether
the body is still being sent along (once a hop drops it, it stays dropped), `body`
the body of the first request. A response that is to be followed but has no
`Location` is returned as it is. The result is the list of requests sent and what
the call returns. -/
def clientDo (w : World) (body : Result) :
    Nat → Nat → Bool → HTTPRequest → List Event × PostResult
  | 0, _, _, _ => ([], PostResult.failed "stopped after 10 redirects")
  | budget + 1, k, includeBody, req =>
    match w.collector k req with
    | RoundTrip.failed e => ([Event.request req], PostResult.failed e)
    | RoundTrip.response resp =>
      match redirectBehavior req.Method resp with
      | none => ([Event.request req], PostResult.response resp.StatusCode)
      | some (method, includeBodyOnHop) =>
        match resp.Location with
        | LocationHeader.absent => ([Event.request req], PostResult.response resp.StatusCode)
        | LocationHeader.invalid =>
          ([Event.request req], PostResult.failed "failed to parse Location header")
        | LocationHeader.target u =>
          let next := clientDo w body budget (k + 1) (includeBody && includeBodyOnHop)
            { Method := method, URL := u,
              body := if (includeBody && includeBodyOnHop) = true then some body else none }
          (Event.request req :: next.1, next.2)

/-- Function `http.Post(url, "application/json", body)`: `http.NewRequest` fails on
an address that does not parse, before anything is sent; otherwise one call of the
default client, starting with a POST of `body` to `url`. -/
def httpPost (w : World) (url : String) (body : Result) : List Event × PostResult :=
  if w.urlParses url = true then
    clientDo w body 10 0 true { Method := "POST", URL := url, body := some body }
  else
    ([], PostResult.failed "parse: invalid URL")

/-- A finished run of `RunClient`: the returned error (`none` is `nil`), the
`Result` built at lines 78-82 when that point is reached, and the final loop
state, whose trace also holds the requests made by `http.Post`. -/
structure ClientRun where
  err : Option ClientError
  result : Option Result
  startTime : Int
  final : LoopState

/-- Function `RunClient` of `client.go`. `json.Marshal` cannot fail on a `Result`
whose delay is a finite number, so line 85 has no counterpart. -/
def RunClient (fuel : Nat) (cfg : ClientConfig) (w : World) : Option ClientRun :=
  let s0 : LoopState := { numMissed := 0, endTime := 0, now := w.startClock, trace := [] }
  if w.POD_NAME = "" then
    some { err := some ClientError.podNameNotSet, result := none, startTime := 0, final := s0 }
  else if w.POD_NAMESPACE = "" then
    some { err := some ClientError.podNamespaceNotSet, result := none, startTime := 0,
           final := s0 }
  else
    let startTime := w.startClock
    match probeLoop cfg w fuel 0 s0 with
    | none => none
    | some (some e, s) => some { err := some e, result := none, startTime := startTime, final := s }
    | some (none, s) =>
      let result : Result :=
        { ClientID := String.intercalate "/" [w.POD_NAMESPACE, w.POD_NAME]
          NumFailedRequests := s.numMissed
          MasqueradeDelay := Seconds (Sub s.endTime startTime) }
      -- resp, err := http.Post("http://"+cfg.MetricsServerAddr+"/result", ..., bodyBuffer)
      let sent := httpPost w ("http://" ++ cfg.MetricsServerAddr ++ "/result") result
      let s4 : LoopState := { s with trace := s.trace ++ sent.1 }
      match sent.2 with
      | PostResult.failed e =>
        some { err := some (ClientError.submit e), result := some result,
               startTime := startTime, final := s4 }
      | PostResult.response code =>
        if code ≠ 202 then
          some { err := some (ClientError.unexpectedStatus code), result := some result,
                 startTime := startTime, final := s4 }
        else
          some { err := none, result := some result, startTime := startTime, final := s4 }

/-- Number of dials in a trace. -/
def dialCount (tr : List Event) : Nat :=
  (tr.filter (fun e => match e with | Event.dial _ => true | _ => false)).length

/-- Number of sleeps in a trace. -/
def sleepCount (tr : List Event) : Nat :=
  (tr.filter (fun e => match e with | Event.sleep _ => true | _ => false)).length

/-- Number of HTTP requests in a trace, whatever their method. -/
def httpCount (tr : List Event) : Nat :=
  (tr.filter (fun e => match e with | Event.request _ => true | _ => false)).length

/-- Number of POSTs in a trace. -/
def postCount (tr : List Event) : Nat :=
  (tr.filter (fun e =>
    match e with
    | Event.request req => decide (req.Method = "POST")
    | _ => false)).length

/-! ## The collector -/

/-- State of a Prometheus counter (`client_golang`): the bits of a `float64` that
collects the non-integral increments, here the number they stand for, and a
`uint64` that collects the integral ones. -/
structure Counter where
  valBits : ℚ
  valInt : Nat
  deriving DecidableEq

/-- Conversion `uint64(v)` of a `float64`: the integral part, which the 64 bits
hold exactly when `0 ≤ v < 2^64`. Go leaves the result open outside that range,
where it is taken modulo `2^64`. -/
def uint64OfFloat (v : ℚ) : Nat :=
  ⌊v⌋.toNat % 2 ^ 64

/-- Method `Add` of a Prometheus counter. As documented ("Add adds the given value
to the counter. It panics if the value is < 0.") the check comes before any
update; `none` stands for the panic. Then
`ival := uint64(v); if float64(ival) == v { atomic.AddUint64(&c.valInt, ival) }`,
an addition that wraps at `2^64`; any other value is added to `valBits`. -/
def counterAdd (c : Counter) (v : ℚ) : Option Counter :=
  if v < 0 then none
  else if float64 (uint64OfFloat v : ℚ) = v then
    some { c with valInt := (c.valInt + uint64OfFloat v) % 2 ^ 64 }
  else
    some { c with valBits := float64 (c.valBits + v) }

/-- The value of a counter as a scrape reads it: `fval + float64(ival)`. -/
def counterGet (c : Counter) : ℚ :=
  float64 (c.valBits + float64 (c.valInt : ℚ))

/-- Method `Observe` of a Prometheus summary: the value joins the observations. -/
def summaryObserve (obs : List ℚ) (v : ℚ) : List ℚ :=
  obs ++ [v]

/-- The two process-wide aggregates of `metrics-server.go`: the counter
`egw_scale_test_failed_requests_total` and the observations made on the summary
`egw_scale_test_masquerade_delay_seconds`, oldest first. -/
structure Aggregates where
  failedRequestsCounter : Counter
  masqueradeDelaySummary : List ℚ
  deriving DecidableEq

/-- Outcome of `io.Copy(&bodyBuffer, r.Body)`: the bytes of the body, or an error. -/
inductive BodyRead where
  | ok (body : String)
  | failed (err : String)
  deriving DecidableEq

/-- The parts of an `http.Request` the handler looks at. -/
structure Request where
  Method : String
  Body : BodyRead
  deriving DecidableEq

/-- What one call of the handler did: the code it passed to `w.WriteHeader`, whether
it ended in a panic, and the aggregates afterwards. -/
structure HandlerRun where
  status : Int
  panicked : Bool
  agg : Aggregates
  deriving DecidableEq

/-- The handler returned by `getResultHandler` in `metrics-server.go`, applied to the
aggregates `agg` and the request `r`. `unmarshal` stands for `json.Unmarshal` into a
`Result`: `none` is a decoding error. -/
def getResultHandler (unmarshal : String → Option Result) (agg : Aggregates) (r : Request) :
    HandlerRun :=
  if r.Method ≠ "POST" then
    { status := 400, panicked := false, agg := agg }
  else
    match r.Body with
    | BodyRead.failed _ => { status := 500, panicked := false, agg := agg }
    | BodyRead.ok body =>
      match unmarshal body with
      | none => { status := 400, panicked := false, agg := agg }
      | some result =>
        -- w.WriteHeader(http.StatusAccepted) comes first
        -- failedRequestsCounter.Add(float64(result.NumFailedRequests))
        match counterAdd agg.failedRequestsCounter
            (float64 (result.NumFailedRequests : ℚ)) with
        | none => { status := 202, panicked := true, agg := agg }
        | some c =>
          { status := 202
            panicked := false
            agg :=
              { failedRequestsCounter := c
                masqueradeDelaySummary :=
                  summaryObserve agg.masqueradeDelaySummary result.MasqueradeDelay } }

/-! ## Auxiliary definitions for stating the properties -/

/-- The attempt yields a connection and a reply other than the expected line, read
without a fatal error. -/
def Attempt.incorrect (a : Attempt) : Bool :=
  match a.dial with
  | DialResult.connected reply readErr => !fatalRead readErr && reply != "pong\n"
  | DialResult.failed _ => false

/-- The attempt yields a connection and exactly the expected line. -/
def Attempt.correct (a : Attempt) : Bool :=
  match a.dial with
  | DialResult.connected reply readErr => !fatalRead readErr && reply == "pong\n"
  | DialResult.failed _ => false

/-- The clock never runs backwards during the operations of the loop. -/
def World.clockMonotone (w : World) : Prop :=
  ∀ i, 0 ≤ (w.attempts i).sleepTook ∧ 0 ≤ (w.attempts i).dialTook ∧ 0 ≤ (w.attempts i).readTook

/-- Every sleep lasts at least as long as was asked for. -/
def World.sleepHonoured (w : World) : Prop :=
  ∀ i, backoff ≤ (w.attempts i).sleepTook

/-- Clock reading when iteration `i` of the loop begins, all earlier iterations
having ended with an incorrect reply: iteration 0 begins at the start time, and
every iteration after the first sleeps before it dials. -/
def iterStart (w : World) : Nat → Int
  | 0 => w.startClock
  | i + 1 =>
    iterStart w i + (if 0 < i then (w.attempts i).sleepTook else 0)
      + (w.attempts i).dialTook + (w.attempts i).readTook

/-- Clock reading taken right after dial `i` (counted from 0) returns. -/
def dialDone (w : World) (i : Nat) : Int :=
  iterStart w i + (if 0 < i then (w.attempts i).sleepTook else 0) + (w.attempts i).dialTook

/-- Clock reading once the reply of dial `i` has been read. -/
def readDone (w : World) (i : Nat) : Int :=
  dialDone w i + (w.attempts i).readTook

/-- State after an iteration started in `s` that ends with an incorrect reply. -/
def stepWrong (cfg : ClientConfig) (w : World) (i : Nat) (s : LoopState) : LoopState :=
  { numMissed := s.numMissed + 1
    endTime := s.now + (if s.numMissed > 0 then (w.attempts i).sleepTook else 0)
      + (w.attempts i).dialTook
    now := s.now + (if s.numMissed > 0 then (w.attempts i).sleepTook else 0)
      + (w.attempts i).dialTook + (w.attempts i).readTook
    trace := s.trace ++ (if s.numMissed > 0 then [Event.sleep backoff] else [])
      ++ [Event.dial cfg.ExternalTargetAddr] ++ [Event.readLine, Event.close] }

/-- State after an iteration started in `s` that ends with the expected reply. -/
def stepRight (cfg : ClientConfig) (w : World) (i : Nat) (s : LoopState) : LoopState :=
  { stepWrong cfg w i s with numMissed := s.numMissed }

/-- State after an iteration started in `s` whose dial fails. -/
def stepFail (cfg : ClientConfig) (w : World) (i : Nat) (s : LoopState) : LoopState :=
  { numMissed := s.numMissed
    endTime := s.now + (if s.numMissed > 0 then (w.attempts i).sleepTook else 0)
      + (w.attempts i).dialTook
    now := s.now + (if s.numMissed > 0 then (w.attempts i).sleepTook else 0)
      + (w.attempts i).dialTook
    trace := s.trace ++ (if s.numMissed > 0 then [Event.sleep backoff] else [])
      ++ [Event.dial cfg.ExternalTargetAddr] }

/-- State after `n` iterations with incorrect replies, the first being iteration `i`. -/
def iterWrong (cfg : ClientConfig) (w : World) : Nat → Nat → LoopState → LoopState
  | 0, _, s => s
  | n + 1, i, s => iterWrong cfg w n (i + 1) (stepWrong cfg w i s)

/-- The state in which `RunClient` enters its loop. -/
def initState (w : World) : LoopState :=
  { numMissed := 0, endTime := 0, now := w.startClock, trace := [] }

/-- The `Result` built at `client.go:78-82` from the state in which the loop ended. -/
def buildResult (w : World) (s : LoopState) : Result :=
  { ClientID := String.intercalate "/" [w.POD_NAMESPACE, w.POD_NAME]
    NumFailedRequests := s.numMissed
    MasqueradeDelay := Seconds (Sub s.endTime w.startClock) }

/-- The address `RunClient` posts to. -/
def resultURL (cfg : ClientConfig) : String :=
  "http://" ++ cfg.MetricsServerAddr ++ "/result"

/-- The first request of the call of `http.Post`: a POST of the result. -/
def firstRequest (cfg : ClientConfig) (res : Result) : HTTPRequest :=
  { Method := "POST", URL := resultURL cfg, body := some res }

/-- The error `RunClient` returns for an outcome of `http.Post` (`none` is `nil`). -/
def postErr : PostResult → Option ClientError
  | PostResult.failed e => some (ClientError.submit e)
  | PostResult.response code => if code ≠ 202 then some (ClientError.unexpectedStatus code) else none

/-- The run of `RunClient` whose loop ended with `break` in state `s`. -/
def submitRun (cfg : ClientConfig) (w : World) (s : LoopState) : ClientRun :=
  { err := postErr (httpPost w (resultURL cfg) (buildResult w s)).2
    result := some (buildResult w s)
    startTime := w.startClock
    final := { s with trace := s.trace ++ (httpPost w (resultURL cfg) (buildResult w s)).1 } }

/-- The status codes the default client treats as redirects. -/
def isRedirectStatus (code : Int) : Prop :=
  code = 301 ∨ code = 302 ∨ code = 303 ∨ code = 307 ∨ code = 308

/-- The sleep made at the head of iteration `n`, if any. -/
def headSleep (n : Nat) : List Event :=
  if 0 < n then [Event.sleep backoff] else []

/-- What holds of the loop state whenever iteration `i` begins. -/
structure Inv (w : World) (i : Nat) (s : LoopState) : Prop where
  missed : s.numMissed = (i : Int)
  clock : s.now = iterStart w i
  dials : dialCount s.trace = i
  sleeps : sleepCount s.trace = i - 1
  posts : httpCount s.trace = 0
  naps : ∀ d, Event.sleep d ∈ s.trace → d = backoff

/-- The state in which the loop of `RunClient` ends in world `w` after `n` incorrect
replies and a correct one. -/
def breakState (cfg : ClientConfig) (w : World) (n : Nat) : LoopState :=
  stepRight cfg w n (iterWrong cfg w n 0 (initState w))

/-! ## Example inputs -/

/-- A configuration with a target and a collector address. -/
def exampleCfg : ClientConfig :=
  { ExternalTargetAddr := "203.0.113.7:1337", MetricsServerAddr := "10.0.0.9:2112" }

/-- A world in which the first connection is closed without a reply, the second
yields `pong` without a newline before the stream ends, and the third yields the
expected line. Sleeps last a little over 50 ms and the collector answers 202. -/
def exampleWorld : World :=
  { POD_NAME := "client-0"
    POD_NAMESPACE := "default"
    startClock := 1000
    attempts := fun i =>
      if i = 0 then
        { sleepTook := 50000000, dialTook := 2000000,
          dial := DialResult.connected "" (some ReadError.EOF), readTook := 1000000 }
      else if i = 1 then
        { sleepTook := 50100000, dialTook := 2000000,
          dial := DialResult.connected "pong" (some ReadError.EOF), readTook := 1000000 }
      else
        { sleepTook := 50200000, dialTook := 3000000,
          dial := DialResult.connected "pong\n" none, readTook := 4000000 }
    urlParses := fun _ => true
    collector := fun _ _ =>
      RoundTrip.response { StatusCode := 202, Location := LocationHeader.absent } }

/-- A world in which the first reply is wrong and the second dial is refused. -/
def refusedWorld : World :=
  { exampleWorld with
    attempts := fun i =>
      if i = 0 then
        { sleepTook := 50000000, dialTook := 2000000,
          dial := DialResult.connected "ping\n" none, readTook := 1000000 }
      else
        { sleepTook := 50100000, dialTook := 50000000,
          dial := DialResult.failed "connect: connection refused", readTook := 0 } }

/-- A world like `exampleWorld` whose collector answers 200. -/
def okStatusWorld : World :=
  { exampleWorld with
    collector := fun _ _ =>
      RoundTrip.response { StatusCode := 200, Location := LocationHeader.absent } }

/-- A world like `exampleWorld` whose collector answers the first request with a 307
to another address and the request sent there with 202. -/
def redirectWorld : World :=
  { exampleWorld with
    collector := fun k _ =>
      if k = 0 then
        RoundTrip.response
          { StatusCode := 307, Location := LocationHeader.target "http://10.0.0.10:2112/result" }
      else
        RoundTrip.response { StatusCode := 202, Location := LocationHeader.absent } }

/-- A world like `exampleWorld` in which no address parses. -/
def badAddressWorld : World :=
  { exampleWorld with urlParses := fun _ => false }

/-- A world like `exampleWorld` without a pod name. -/
def unnamedWorld : World :=
  { exampleWorld with POD_NAME := "" }

/-- The JSON text of a result with two failed requests and a delay of an eighth of
a second. -/
def exampleBody : String :=
  "\x7b\"ClientID\":\"default/client-0\",\"NumFailedRequests\":2,\"MasqueradeDelay\":0.125\x7d"

/-- The JSON text of a result whose count of failed requests is negative. -/
def negativeBody : String :=
  "\x7b\"ClientID\":\"default/client-0\",\"NumFailedRequests\":-5,\"MasqueradeDelay\":0.125\x7d"

/-- The JSON text of a result whose count of failed requests is `2^53 + 1`. -/
def oddBody : String :=
  "\x7b\"ClientID\":\"default/client-0\",\"NumFailedRequests\":9007199254740993,\"MasqueradeDelay\":0.125\x7d"

/-- The JSON text of a result whose count of failed requests is `2^63 - 1`. -/
def maxBody : String :=
  "\x7b\"ClientID\":\"default/client-0\",\"NumFailedRequests\":9223372036854775807,\"MasqueradeDelay\":0.125\x7d"

/-- A decoder that knows the four bodies above and rejects everything else. -/
def exampleUnmarshal (body : String) : Option Result :=
  if body = exampleBody then
    some { ClientID := "default/client-0", NumFailedRequests := 2, MasqueradeDelay := 1 / 8 }
  else if body = negativeBody then
    some { ClientID := "default/client-0", NumFailedRequests := -5, MasqueradeDelay := 1 / 8 }
  else if body = oddBody then
    some { ClientID := "default/client-0", NumFailedRequests := 9007199254740993,
           MasqueradeDelay := 1 / 8 }
  else if body = maxBody then
    some { ClientID := "default/client-0", NumFailedRequests := 9223372036854775807,
           MasqueradeDelay := 1 / 8 }
  else none

/-- Aggregates after some earlier submissions. -/
def exampleAgg : Aggregates :=
  { failedRequestsCounter := { valBits := 0, valInt := 7 }, masqueradeDelaySummary := [1 / 4] }

/-- Aggregates of a collector that has just started. -/
def freshAgg : Aggregates :=
  { failedRequestsCounter := { valBits := 0, valInt := 0 }, masqueradeDelaySummary := [] }

/-- Aggregates whose counter stands at `2^63`, as after a first submission of
`maxBody` to a fresh collector. -/
def halfwayAgg : Aggregates :=
  { failedRequestsCounter := { valBits := 0, valInt := 9223372036854775808 },
    masqueradeDelaySummary := [1 / 8] }

/-! ## Lemmas on rounding -/

theorem floor_le_roundHalfEven (t : ℚ) : ⌊t⌋ ≤ roundHalfEven t := by
  unfold roundHalfEven
  split_ifs <;> omega

theorem roundHalfEven_le_floor_succ (t : ℚ) : roundHalfEven t ≤ ⌊t⌋ + 1 := by
  unfold roundHalfEven
  split_ifs <;> omega

theorem roundHalfEven_intCast (z : ℤ) : roundHalfEven (z : ℚ) = z := by
  unfold roundHalfEven
  simp

theorem roundHalfEven_mono {t u : ℚ} (h : t ≤ u) : roundHalfEven t ≤ roundHalfEven u := by
  have hfl : ⌊t⌋ ≤ ⌊u⌋ := Int.floor_mono h
  rcases lt_or_eq_of_le hfl with hlt | heq
  · calc roundHalfEven t ≤ ⌊t⌋ + 1 := roundHalfEven_le_floor_succ t
      _ ≤ ⌊u⌋ := hlt
      _ ≤ roundHalfEven u := floor_le_roundHalfEven u
  · have hfrac : t - ⌊t⌋ ≤ u - ⌊u⌋ := by rw [heq]; linarith
    unfold roundHalfEven
    rw [heq]
    split_ifs <;> first | omega | (exfalso; linarith)

theorem le_roundHalfEven {z : ℤ} {t : ℚ} (h : (z : ℚ) ≤ t) : z ≤ roundHalfEven t := by
  simpa [roundHalfEven_intCast] using roundHalfEven_mono h

theorem roundHalfEven_le {z : ℤ} {t : ℚ} (h : t ≤ (z : ℚ)) : roundHalfEven t ≤ z := by
  simpa [roundHalfEven_intCast] using roundHalfEven_mono h

theorem two_zpow_pos (k : ℤ) : (0 : ℚ) < 2 ^ k := by positivity

theorem log_two_eq_of {x : ℚ} {e : ℤ} (h1 : (2 : ℚ) ^ e ≤ x) (h2 : x < 2 ^ (e + 1)) :
    Int.log 2 x = e := by
  have hx : 0 < x := lt_of_lt_of_le (two_zpow_pos e) h1
  have ha : e ≤ Int.log 2 x := by
    rw [← Int.zpow_le_iff_le_log (by norm_num) hx]
    simpa using h1
  have hb : Int.log 2 x < e + 1 := by
    rw [← Int.lt_zpow_iff_log_lt (by norm_num) hx]
    simpa using h2
  omega

theorem zpow_log_le {x : ℚ} (hx : 0 < x) : (2 : ℚ) ^ Int.log 2 x ≤ x := by
  simpa using Int.zpow_log_le_self (b := 2) (by norm_num) hx

theorem lt_zpow_log_succ (x : ℚ) : x < (2 : ℚ) ^ (Int.log 2 x + 1) := by
  simpa using Int.lt_zpow_succ_log_self (b := 2) (by norm_num) x

/-- The scaled significand of a positive rational lies in `[2^52, 2^53)`. -/
theorem scaled_bounds {x : ℚ} (hx : 0 < x) :
    (2 : ℚ) ^ (52 : ℤ) ≤ x / 2 ^ (Int.log 2 x - 52)
      ∧ x / 2 ^ (Int.log 2 x - 52) < (2 : ℚ) ^ (53 : ℤ) := by
  have hu := two_zpow_pos (Int.log 2 x - 52)
  constructor
  · rw [le_div_iff₀ hu, ← zpow_add₀ (by norm_num : (2 : ℚ) ≠ 0)]
    simpa using zpow_log_le hx
  · rw [div_lt_iff₀ hu, ← zpow_add₀ (by norm_num : (2 : ℚ) ≠ 0)]
    have := lt_zpow_log_succ x
    rwa [show (53 : ℤ) + (Int.log 2 x - 52) = Int.log 2 x + 1 by ring]

theorem roundPos_ge {x : ℚ} (hx : 0 < x) : (2 : ℚ) ^ Int.log 2 x ≤ roundPos x := by
  have hu := two_zpow_pos (Int.log 2 x - 52)
  have hq : ((2 ^ 52 : ℤ) : ℚ) ≤ x / 2 ^ (Int.log 2 x - 52) := by
    have := (scaled_bounds hx).1
    norm_num at this ⊢
    exact this
  have hz : (2 ^ 52 : ℤ) ≤ roundHalfEven (x / 2 ^ (Int.log 2 x - 52)) := le_roundHalfEven hq
  have hzq : ((2 : ℚ) ^ (52 : ℤ)) ≤ (roundHalfEven (x / 2 ^ (Int.log 2 x - 52)) : ℚ) := by
    have : ((2 ^ 52 : ℤ) : ℚ) ≤ (roundHalfEven (x / 2 ^ (Int.log 2 x - 52)) : ℚ) := by
      exact_mod_cast hz
    norm_num at this ⊢
    exact this
  unfold roundPos
  calc (2 : ℚ) ^ Int.log 2 x = 2 ^ (52 : ℤ) * 2 ^ (Int.log 2 x - 52) := by
        rw [← zpow_add₀ (by norm_num : (2 : ℚ) ≠ 0)]; congr 1; ring
    _ ≤ _ := mul_le_mul_of_nonneg_right hzq hu.le

theorem roundPos_le {x : ℚ} (hx : 0 < x) : roundPos x ≤ (2 : ℚ) ^ (Int.log 2 x + 1) := by
  have hu := two_zpow_pos (Int.log 2 x - 52)
  have hq : x / 2 ^ (Int.log 2 x - 52) ≤ ((2 ^ 53 : ℤ) : ℚ) := by
    have := (scaled_bounds hx).2.le
    norm_num at this ⊢
    exact this
  have hz : roundHalfEven (x / 2 ^ (Int.log 2 x - 52)) ≤ (2 ^ 53 : ℤ) := roundHalfEven_le hq
  have hzq : (roundHalfEven (x / 2 ^ (Int.log 2 x - 52)) : ℚ) ≤ ((2 : ℚ) ^ (53 : ℤ)) := by
    have : (roundHalfEven (x / 2 ^ (Int.log 2 x - 52)) : ℚ) ≤ ((2 ^ 53 : ℤ) : ℚ) := by
      exact_mod_cast hz
    norm_num at this ⊢
    exact this
  unfold roundPos
  calc _ ≤ (2 : ℚ) ^ (53 : ℤ) * 2 ^ (Int.log 2 x - 52) := mul_le_mul_of_nonneg_right hzq hu.le
    _ = (2 : ℚ) ^ (Int.log 2 x + 1) := by
        rw [← zpow_add₀ (by norm_num : (2 : ℚ) ≠ 0)]; congr 1; ring

theorem roundPos_pos {x : ℚ} (hx : 0 < x) : 0 < roundPos x :=
  lt_of_lt_of_le (two_zpow_pos _) (roundPos_ge hx)

theorem roundPos_mono {x y : ℚ} (hx : 0 < x) (h : x ≤ y) : roundPos x ≤ roundPos y := by
  have hy : 0 < y := lt_of_lt_of_le hx h
  have hlog : Int.log 2 x ≤ Int.log 2 y := Int.log_mono_right hx h
  rcases lt_or_eq_of_le hlog with hlt | heq
  · calc roundPos x ≤ (2 : ℚ) ^ (Int.log 2 x + 1) := roundPos_le hx
      _ ≤ (2 : ℚ) ^ Int.log 2 y := zpow_le_zpow_right₀ (by norm_num) (by omega)
      _ ≤ roundPos y := roundPos_ge hy
  · unfold roundPos
    rw [heq]
    have hu := two_zpow_pos (Int.log 2 y - 52)
    have hdiv : x / 2 ^ (Int.log 2 y - 52) ≤ y / 2 ^ (Int.log 2 y - 52) :=
      div_le_div_of_nonneg_right h hu.le
    have hr := roundHalfEven_mono hdiv
    have hrq : (roundHalfEven (x / 2 ^ (Int.log 2 y - 52)) : ℚ)
        ≤ (roundHalfEven (y / 2 ^ (Int.log 2 y - 52)) : ℚ) := by exact_mod_cast hr
    exact mul_le_mul_of_nonneg_right hrq hu.le

theorem float64_zero : float64 0 = 0 := by simp [float64]

theorem float64_nonneg {x : ℚ} (hx : 0 ≤ x) : 0 ≤ float64 x := by
  unfold float64
  split_ifs with h1 h2
  · exact (roundPos_pos h1).le
  · exact absurd hx (not_le.mpr h2)
  · exact le_refl _

theorem float64_neg_of_neg {x : ℚ} (hx : x < 0) : float64 x < 0 := by
  unfold float64
  rw [if_neg (not_lt.mpr hx.le), if_pos hx]
  have := roundPos_pos (neg_pos.mpr hx)
  linarith

theorem float64_mono {x y : ℚ} (h : x ≤ y) : float64 x ≤ float64 y := by
  rcases lt_trichotomy x 0 with hx | hx | hx
  · rcases lt_trichotomy y 0 with hy | hy | hy
    · have := roundPos_mono (neg_pos.mpr hy) (neg_le_neg h)
      unfold float64
      rw [if_neg (not_lt.mpr hx.le), if_pos hx, if_neg (not_lt.mpr hy.le), if_pos hy]
      linarith
    · subst hy
      rw [float64_zero]
      exact (float64_neg_of_neg hx).le
    · exact le_trans (float64_neg_of_neg hx).le (float64_nonneg hy.le)
  · subst hx
    rw [float64_zero]
    exact float64_nonneg h
  · have hy : 0 < y := lt_of_lt_of_le hx h
    unfold float64
    rw [if_pos hx, if_pos hy]
    exact roundPos_mono hx h

theorem roundPos_exact {x : ℚ} (z : ℤ) (hz : x / 2 ^ (Int.log 2 x - 52) = (z : ℚ)) :
    roundPos x = x := by
  have hu := two_zpow_pos (Int.log 2 x - 52)
  unfold roundPos
  rw [hz, roundHalfEven_intCast, ← hz]
  field_simp

theorem roundPos_scaled (q k : ℤ) (h1 : 2 ^ 52 ≤ q) (h2 : q ≤ 2 ^ 53) :
    roundPos ((q : ℚ) * 2 ^ k) = (q : ℚ) * 2 ^ k := by
  have hk := two_zpow_pos k
  have h1q : ((2 : ℚ) ^ (52 : ℤ)) ≤ (q : ℚ) := by
    have : ((2 ^ 52 : ℤ) : ℚ) ≤ (q : ℚ) := by exact_mod_cast h1
    norm_num at this ⊢
    exact this
  rcases lt_or_eq_of_le h2 with hlt | heq
  · have h2q : (q : ℚ) < ((2 : ℚ) ^ (53 : ℤ)) := by
      have : (q : ℚ) < ((2 ^ 53 : ℤ) : ℚ) := by exact_mod_cast hlt
      norm_num at this ⊢
      exact this
    have hlog : Int.log 2 ((q : ℚ) * 2 ^ k) = k + 52 := by
      apply log_two_eq_of
      · rw [show k + 52 = 52 + k by ring, zpow_add₀ (by norm_num : (2 : ℚ) ≠ 0)]
        exact mul_le_mul_of_nonneg_right h1q hk.le
      · rw [show k + 52 + 1 = 53 + k by ring, zpow_add₀ (by norm_num : (2 : ℚ) ≠ 0)]
        exact mul_lt_mul_of_pos_right h2q hk
    apply roundPos_exact q
    rw [hlog, show k + 52 - 52 = k by ring]
    field_simp
  · subst heq
    have hlog : Int.log 2 (((2 ^ 53 : ℤ) : ℚ) * 2 ^ k) = k + 53 := by
      apply log_two_eq_of
      · rw [show k + 53 = 53 + k by ring, zpow_add₀ (by norm_num : (2 : ℚ) ≠ 0)]
        norm_num
      · rw [show k + 53 + 1 = 54 + k by ring, zpow_add₀ (by norm_num : (2 : ℚ) ≠ 0)]
        apply mul_lt_mul_of_pos_right _ hk
        norm_num
    apply roundPos_exact (2 ^ 52)
    rw [hlog, show k + 53 - 52 = 1 + k by ring, zpow_add₀ (by norm_num : (2 : ℚ) ≠ 0)]
    field_simp
    norm_num
    ring

/-- The significand chosen by `roundPos` lies in `[2^52, 2^53]`. -/
theorem significand_bounds {x : ℚ} (hx : 0 < x) :
    2 ^ 52 ≤ roundHalfEven (x / 2 ^ (Int.log 2 x - 52))
      ∧ roundHalfEven (x / 2 ^ (Int.log 2 x - 52)) ≤ 2 ^ 53 := by
  constructor
  · apply le_roundHalfEven
    have := (scaled_bounds hx).1
    norm_num at this ⊢
    exact this
  · apply roundHalfEven_le
    have := (scaled_bounds hx).2.le
    norm_num at this ⊢
    exact this

theorem roundPos_idem {x : ℚ} (hx : 0 < x) : roundPos (roundPos x) = roundPos x := by
  obtain ⟨h1, h2⟩ := significand_bounds hx
  exact roundPos_scaled _ _ h1 h2

theorem float64_idem (x : ℚ) : float64 (float64 x) = float64 x := by
  rcases lt_trichotomy x 0 with hx | hx | hx
  · have hp := roundPos_pos (neg_pos.mpr hx)
    have h1 : float64 x = -roundPos (-x) := by
      unfold float64
      rw [if_neg (not_lt.mpr hx.le), if_pos hx]
    rw [h1]
    unfold float64
    rw [if_neg (by linarith), if_pos (by linarith), neg_neg, roundPos_idem (neg_pos.mpr hx)]
  · subst hx
    simp [float64_zero]
  · have hp := roundPos_pos hx
    have h1 : float64 x = roundPos x := by
      unfold float64
      rw [if_pos hx]
    rw [h1]
    unfold float64
    rw [if_pos hp, roundPos_idem hx]

theorem float64_natCast_small (n : ℕ) (h : n ≤ 2 ^ 53) : float64 (n : ℚ) = (n : ℚ) := by
  rcases Nat.eq_zero_or_pos n with h0 | hpos
  · subst h0
    simp [float64_zero]
  · have hq : (0 : ℚ) < (n : ℚ) := by exact_mod_cast hpos
    unfold float64
    rw [if_pos hq]
    rcases lt_or_eq_of_le h with hlt | heq
    · have hlog : Int.log 2 (n : ℚ) = (Nat.log 2 n : ℤ) := Int.log_natCast 2 n
      have hle : Nat.log 2 n < 53 := Nat.log_lt_of_lt_pow (by omega) hlt
      apply roundPos_exact ((n : ℤ) * 2 ^ (52 - Nat.log 2 n))
      rw [hlog]
      have hz : ((Nat.log 2 n : ℤ) - 52) = -((52 - Nat.log 2 n : ℕ) : ℤ) := by omega
      rw [hz, zpow_neg, zpow_natCast]
      push_cast
      field_simp
    · subst heq
      have := roundPos_scaled (2 ^ 53) 0 (by norm_num) (le_refl _)
      simpa using this

theorem float64_intCast_small (n : ℤ) (h0 : 0 ≤ n) (h : n ≤ 2 ^ 53) :
    float64 (n : ℚ) = (n : ℚ) := by
  obtain ⟨m, rfl⟩ := Int.eq_ofNat_of_zero_le h0
  have hm : m ≤ 2 ^ 53 := by exact_mod_cast h
  simpa using float64_natCast_small m hm

/-- The `float64` nearest to a natural number is a natural number. -/
theorem float64_natCast_isNat (n : ℕ) : ∃ m : ℕ, float64 (n : ℚ) = (m : ℚ) := by
  rcases le_or_lt n (2 ^ 53) with h | h
  · exact ⟨n, float64_natCast_small n h⟩
  · have hpos : 0 < n := lt_trans (by norm_num) h
    have hq : (0 : ℚ) < (n : ℚ) := by exact_mod_cast hpos
    have hlog : Int.log 2 (n : ℚ) = (Nat.log 2 n : ℤ) := Int.log_natCast 2 n
    have hge : 53 ≤ Nat.log 2 n := Nat.le_log_of_pow_le (by norm_num) h.le
    obtain ⟨h1, -⟩ := significand_bounds hq
    have hs0 : 0 ≤ roundHalfEven ((n : ℚ) / 2 ^ (Int.log 2 (n : ℚ) - 52)) :=
      le_trans (by norm_num) h1
    obtain ⟨s, hs⟩ := Int.eq_ofNat_of_zero_le hs0
    refine ⟨s * 2 ^ (Nat.log 2 n - 52), ?_⟩
    unfold float64
    rw [if_pos hq]
    unfold roundPos
    rw [hs, hlog]
    have hz : ((Nat.log 2 n : ℤ) - 52) = ((Nat.log 2 n - 52 : ℕ) : ℤ) := by omega
    rw [hz, zpow_natCast]
    push_cast
    ring

/-! ## Rounding at given numbers -/

theorem roundHalfEven_of_lt_half {t : ℚ} (z : ℤ) (h1 : (z : ℚ) ≤ t) (h2 : t < (z : ℚ) + 1 / 2) :
    roundHalfEven t = z := by
  have hf : ⌊t⌋ = z := by
    rw [Int.floor_eq_iff]
    exact ⟨h1, by linarith⟩
  unfold roundHalfEven
  rw [hf, if_pos (by linarith)]

theorem roundHalfEven_of_gt_half {t : ℚ} (z : ℤ) (h1 : (z : ℚ) + 1 / 2 < t)
    (h2 : t < (z : ℚ) + 1) : roundHalfEven t = z + 1 := by
  have hf : ⌊t⌋ = z := by
    rw [Int.floor_eq_iff]
    exact ⟨by linarith, h2⟩
  unfold roundHalfEven
  rw [hf, if_neg (by linarith), if_pos (by linarith)]

theorem roundHalfEven_of_tie_even {t : ℚ} (z : ℤ) (h : t = (z : ℚ) + 1 / 2) (he : z % 2 = 0) :
    roundHalfEven t = z := by
  have hf : ⌊t⌋ = z := by
    rw [Int.floor_eq_iff]
    exact ⟨by linarith, by linarith⟩
  unfold roundHalfEven
  rw [hf, if_neg (by linarith), if_neg (by linarith), if_pos he]

theorem roundPos_of_log {x : ℚ} (e q : ℤ) (h1 : (2 : ℚ) ^ e ≤ x) (h2 : x < 2 ^ (e + 1))
    (hq : roundHalfEven (x / 2 ^ (e - 52)) = q) : roundPos x = (q : ℚ) * 2 ^ (e - 52) := by
  unfold roundPos
  rw [log_two_eq_of h1 h2, hq]

/-- The double nearest to 3/20 lies below it. -/
theorem float64_three_twentieths : float64 (3 / 20) = 5404319552844595 / 36028797018963968 := by
  have hp : (0 : ℚ) < 3 / 20 := by norm_num
  unfold float64
  rw [if_pos hp, roundPos_of_log (-3) 5404319552844595 (by norm_num) (by norm_num)
    (roundHalfEven_of_lt_half _ (by norm_num) (by norm_num))]
  norm_num

/-- The conversion `float64(9007199254740993)`, a tie that goes to the even
significand. -/
theorem float64_two_pow_53_succ : float64 9007199254740993 = 9007199254740992 := by
  have hp : (0 : ℚ) < 9007199254740993 := by norm_num
  unfold float64
  rw [if_pos hp, roundPos_of_log 53 4503599627370496 (by norm_num) (by norm_num)
    (roundHalfEven_of_tie_even _ (by norm_num) (by norm_num))]
  norm_num

/-- The conversion `float64(math.MaxInt64)` is `2^63`. -/
theorem float64_maxInt64 : float64 9223372036854775807 = 9223372036854775808 := by
  have hp : (0 : ℚ) < 9223372036854775807 := by norm_num
  unfold float64
  rw [if_pos hp, roundPos_of_log 62 9007199254740992 (by norm_num) (by norm_num)
    (roundHalfEven_of_gt_half 9007199254740991 (by norm_num) (by norm_num))]
  norm_num

/-! ## Lemmas on time -/

theorem float64_one : float64 1 = 1 := by
  simpa using float64_natCast_small 1 (by norm_num)

theorem Seconds_nonneg {d : Int} (h : 0 ≤ d) : 0 ≤ Seconds d := by
  have h1 : 0 ≤ Int.tdiv d Second := Int.tdiv_nonneg h (by decide)
  have h2 : 0 ≤ Int.tmod d Second := Int.tmod_nonneg _ h
  have h1q : (0 : ℚ) ≤ ((Int.tdiv d Second : Int) : ℚ) := by exact_mod_cast h1
  have h2q : (0 : ℚ) ≤ ((Int.tmod d Second : Int) : ℚ) := by exact_mod_cast h2
  unfold Seconds
  apply float64_nonneg
  apply add_nonneg (float64_nonneg h1q)
  apply float64_nonneg
  exact div_nonneg (float64_nonneg h2q) (by norm_num)

/-- The fraction-of-a-second term of `Seconds` lies in `[0, 1]`. -/
theorem fraction_bounds {r : Int} (h0 : 0 ≤ r) (h1 : r < Second) :
    0 ≤ float64 (float64 (r : ℚ) / 1000000000) ∧ float64 (float64 (r : ℚ) / 1000000000) ≤ 1 := by
  have hr : float64 (r : ℚ) = (r : ℚ) :=
    float64_intCast_small r h0 (by unfold Second at h1; omega)
  have h0q : (0 : ℚ) ≤ (r : ℚ) := by exact_mod_cast h0
  have h1q : (r : ℚ) ≤ 1000000000 := by
    have : r ≤ 1000000000 := by unfold Second at h1; omega
    exact_mod_cast this
  rw [hr]
  constructor
  · exact float64_nonneg (div_nonneg h0q (by norm_num))
  · have : (r : ℚ) / 1000000000 ≤ 1 := by
      rw [div_le_one (by norm_num)]
      exact h1q
    simpa [float64_one] using float64_mono this

theorem Seconds_mono {d1 d2 : Int} (h0 : 0 ≤ d1) (h : d1 ≤ d2)
    (hr : d2 < 9223372036854775808) : Seconds d1 ≤ Seconds d2 := by
  have h02 : 0 ≤ d2 := le_trans h0 h
  have hS : (0 : Int) ≤ Second := by decide
  unfold Seconds
  rw [Int.tdiv_eq_ediv h0 hS, Int.tmod_eq_emod h0 hS, Int.tdiv_eq_ediv h02 hS,
    Int.tmod_eq_emod h02 hS]
  have hq1 : 0 ≤ d1 / Second := Int.ediv_nonneg h0 hS
  have hq2 : 0 ≤ d2 / Second := Int.ediv_nonneg h02 hS
  have hm1 : 0 ≤ d1 % Second := Int.emod_nonneg _ (by decide)
  have hm2 : 0 ≤ d2 % Second := Int.emod_nonneg _ (by decide)
  have hl1 : d1 % Second < Second := Int.emod_lt_of_pos _ (by decide)
  have hl2 : d2 % Second < Second := Int.emod_lt_of_pos _ (by decide)
  have e1 := Int.ediv_add_emod d1 Second
  have e2 := Int.ediv_add_emod d2 Second
  have hsmall2 : d2 / Second ≤ 2 ^ 53 := by
    unfold Second at e2 hm2 ⊢
    omega
  have hqle : d1 / Second ≤ d2 / Second := Int.ediv_le_ediv (by decide) h
  have hsmall1 : d1 / Second ≤ 2 ^ 53 := le_trans hqle hsmall2
  rw [float64_intCast_small _ hq1 hsmall1, float64_intCast_small _ hq2 hsmall2]
  apply float64_mono
  obtain ⟨b1lo, b1hi⟩ := fraction_bounds hm1 hl1
  obtain ⟨b2lo, b2hi⟩ := fraction_bounds hm2 hl2
  rcases lt_or_eq_of_le hqle with hlt | heq
  · have : ((d1 / Second : Int) : ℚ) + 1 ≤ ((d2 / Second : Int) : ℚ) := by
      exact_mod_cast (show d1 / Second + 1 ≤ d2 / Second by omega)
    linarith
  · have hmle : d1 % Second ≤ d2 % Second := by
      rw [heq] at e1
      omega
    have hmq : ((d1 % Second : Int) : ℚ) ≤ ((d2 % Second : Int) : ℚ) := by exact_mod_cast hmle
    have hf := float64_mono hmq
    have hd : float64 ((d1 % Second : Int) : ℚ) / 1000000000
        ≤ float64 ((d2 % Second : Int) : ℚ) / 1000000000 :=
      div_le_div_of_nonneg_right hf (by norm_num)
    have := float64_mono hd
    rw [heq]
    linarith

/-- Three backoff intervals: the value `Seconds` reports is the double nearest to
0.15, which lies below 3/20. -/
theorem Seconds_three_backoffs :
    Seconds 150000000 = 5404319552844595 / 36028797018963968 := by
  have h1 : Int.tdiv 150000000 Second = 0 := by decide
  have h2 : Int.tmod 150000000 Second = 150000000 := by decide
  unfold Seconds
  rw [h1, h2]
  have h3 : float64 ((150000000 : Int) : ℚ) = 150000000 := by
    simpa using float64_intCast_small 150000000 (by norm_num) (by norm_num)
  have h4 : (150000000 : ℚ) / 1000000000 = 3 / 20 := by norm_num
  rw [h3, h4, float64_three_twentieths]
  have h5 : float64 ((0 : Int) : ℚ) = 0 := by simp [float64_zero]
  rw [h5, zero_add, ← float64_three_twentieths, float64_idem]

/-! ## Lemmas on one iteration of the loop -/

theorem probeLoop_wrong (cfg : ClientConfig) (w : World) (fuel i : Nat) (s : LoopState)
    (h : (w.attempts i).incorrect = true) :
    probeLoop cfg w (fuel + 1) i s = probeLoop cfg w fuel (i + 1) (stepWrong cfg w i s) := by
  unfold Attempt.incorrect at h
  cases hd : (w.attempts i).dial with
  | failed e => simp [hd] at h
  | connected reply readErr =>
    simp only [hd, Bool.and_eq_true, Bool.not_eq_true', bne_iff_ne, ne_eq] at h
    obtain ⟨hf, hr⟩ := h
    by_cases hm : s.numMissed > 0
    · cases readErr with
      | none => simp [probeLoop, hd, hr, hm, stepWrong, add_assoc]
      | some e =>
        cases e with
        | EOF => simp [probeLoop, hd, hr, hm, stepWrong, add_assoc]
        | other m => simp [fatalRead] at hf
    · cases readErr with
      | none => simp [probeLoop, hd, hr, hm, stepWrong, add_assoc]
      | some e =>
        cases e with
        | EOF => simp [probeLoop, hd, hr, hm, stepWrong, add_assoc]
        | other m => simp [fatalRead] at hf

theorem probeLoop_right (cfg : ClientConfig) (w : World) (fuel i : Nat) (s : LoopState)
    (h : (w.attempts i).correct = true) :
    probeLoop cfg w (fuel + 1) i s = some (none, stepRight cfg w i s) := by
  unfold Attempt.correct at h
  cases hd : (w.attempts i).dial with
  | failed e => simp [hd] at h
  | connected reply readErr =>
    simp only [hd, Bool.and_eq_true, Bool.not_eq_true', beq_iff_eq] at h
    obtain ⟨hf, hr⟩ := h
    by_cases hm : s.numMissed > 0
    · cases readErr with
      | none => simp [probeLoop, hd, hr, hm, stepRight, stepWrong, add_assoc]
      | some e =>
        cases e with
        | EOF => simp [probeLoop, hd, hr, hm, stepRight, stepWrong, add_assoc]
        | other m => simp [fatalRead] at hf
    · cases readErr with
      | none => simp [probeLoop, hd, hr, hm, stepRight, stepWrong, add_assoc]
      | some e =>
        cases e with
        | EOF => simp [probeLoop, hd, hr, hm, stepRight, stepWrong, add_assoc]
        | other m => simp [fatalRead] at hf

theorem probeLoop_failed (cfg : ClientConfig) (w : World) (fuel i : Nat) (s : LoopState)
    (e : String) (h : (w.attempts i).dial = DialResult.failed e) :
    probeLoop cfg w (fuel + 1) i s = some (some (ClientError.dial e), stepFail cfg w i s) := by
  by_cases hm : s.numMissed > 0
  · simp [probeLoop, h, hm, stepFail, add_assoc]
  · simp [probeLoop, h, hm, stepFail, add_assoc]

/-! ## Lemmas on the whole loop -/

theorem probeLoop_iterWrong (cfg : ClientConfig) (w : World) (n : Nat) :
    ∀ (fuel i : Nat) (s : LoopState),
      (∀ j, j < n → (w.attempts (i + j)).incorrect = true) →
      probeLoop cfg w (fuel + n) i s = probeLoop cfg w fuel (i + n) (iterWrong cfg w n i s) := by
  induction n with
  | zero => intro fuel i s _; rfl
  | succ n ih =>
    intro fuel i s h
    have h0 : (w.attempts i).incorrect = true := by simpa using h 0 (Nat.succ_pos n)
    have hrest : ∀ j, j < n → (w.attempts (i + 1 + j)).incorrect = true := by
      intro j hj
      have := h (j + 1) (Nat.succ_lt_succ hj)
      rwa [show i + (j + 1) = i + 1 + j by omega] at this
    rw [show fuel + (n + 1) = (fuel + n) + 1 by omega, probeLoop_wrong cfg w _ i s h0,
      ih fuel (i + 1) _ hrest, show i + 1 + n = i + (n + 1) by omega]
    rfl

theorem probeLoop_success (cfg : ClientConfig) (w : World) (n fuel : Nat) (s : LoopState)
    (hw : ∀ j, j < n → (w.attempts j).incorrect = true)
    (hr : (w.attempts n).correct = true) (hfuel : n < fuel) :
    probeLoop cfg w fuel 0 s = some (none, stepRight cfg w n (iterWrong cfg w n 0 s)) := by
  obtain ⟨k, rfl⟩ : ∃ k, fuel = (k + 1) + n := ⟨fuel - n - 1, by omega⟩
  have hw0 : ∀ j, j < n → (w.attempts (0 + j)).incorrect = true := by
    intro j hj; simpa using hw j hj
  rw [probeLoop_iterWrong cfg w n (k + 1) 0 s hw0]
  simpa using probeLoop_right cfg w k (0 + n) _ (by simpa using hr)

theorem probeLoop_dialError (cfg : ClientConfig) (w : World) (n fuel : Nat) (s : LoopState)
    (e : String) (hw : ∀ j, j < n → (w.attempts j).incorrect = true)
    (hd : (w.attempts n).dial = DialResult.failed e) (hfuel : n < fuel) :
    probeLoop cfg w fuel 0 s
      = some (some (ClientError.dial e), stepFail cfg w n (iterWrong cfg w n 0 s)) := by
  obtain ⟨k, rfl⟩ : ∃ k, fuel = (k + 1) + n := ⟨fuel - n - 1, by omega⟩
  have hw0 : ∀ j, j < n → (w.attempts (0 + j)).incorrect = true := by
    intro j hj; simpa using hw j hj
  rw [probeLoop_iterWrong cfg w n (k + 1) 0 s hw0]
  simpa using probeLoop_failed cfg w k (0 + n) _ e (by simpa using hd)

/-- A loop that ends with `break` saw incorrect replies and then a correct one. -/
theorem probeLoop_break_inv (cfg : ClientConfig) (w : World) :
    ∀ (fuel i : Nat) (s t : LoopState), probeLoop cfg w fuel i s = some (none, t) →
      ∃ n, n < fuel ∧ (∀ j, j < n → (w.attempts (i + j)).incorrect = true)
        ∧ (w.attempts (i + n)).correct = true := by
  intro fuel
  induction fuel with
  | zero => intro i s t h; simp [probeLoop] at h
  | succ fuel ih =>
    intro i s t h
    by_cases hc : (w.attempts i).correct = true
    · exact ⟨0, Nat.succ_pos _, by intro j hj; omega, by simpa using hc⟩
    · by_cases hi : (w.attempts i).incorrect = true
      · rw [probeLoop_wrong cfg w fuel i s hi] at h
        obtain ⟨n, hn, hw, hr⟩ := ih (i + 1) _ t h
        refine ⟨n + 1, Nat.succ_lt_succ hn, ?_, ?_⟩
        · intro j hj
          cases j with
          | zero => simpa using hi
          | succ j =>
            have := hw j (by omega)
            rwa [show i + 1 + j = i + (j + 1) by omega] at this
        · rwa [show i + 1 + n = i + (n + 1) by omega] at hr
      · exfalso
        unfold Attempt.correct at hc
        unfold Attempt.incorrect at hi
        cases hd : (w.attempts i).dial with
        | failed e =>
          rw [probeLoop_failed cfg w fuel i s e hd] at h
          simp at h
        | connected reply readErr =>
          cases readErr with
          | none => by_cases hp : reply = "pong\n" <;> simp [hd, hp, fatalRead] at hc hi
          | some e =>
            cases e with
            | EOF => by_cases hp : reply = "pong\n" <;> simp [hd, hp, fatalRead] at hc hi
            | other m => simp [probeLoop, hd] at h

/-! ## Lemmas on `RunClient` -/

theorem RunClient_of_break (fuel : Nat) (cfg : ClientConfig) (w : World) (s : LoopState)
    (hn : w.POD_NAME ≠ "") (hs : w.POD_NAMESPACE ≠ "")
    (h : probeLoop cfg w fuel 0 (initState w) = some (none, s)) :
    RunClient fuel cfg w = some (submitRun cfg w s) := by
  unfold initState at h
  simp only [RunClient, hn, hs, if_false, h, submitRun, buildResult, resultURL]
  cases hpost : (httpPost w _ _).2 with
  | failed e => simp [postErr]
  | response code => by_cases hc : code = 202 <;> simp [hc, postErr]

theorem RunClient_of_error (fuel : Nat) (cfg : ClientConfig) (w : World) (s : LoopState)
    (e : ClientError) (hn : w.POD_NAME ≠ "") (hs : w.POD_NAMESPACE ≠ "")
    (h : probeLoop cfg w fuel 0 (initState w) = some (some e, s)) :
    RunClient fuel cfg w
      = some { err := some e, result := none, startTime := w.startClock, final := s } := by
  unfold initState at h
  simp only [RunClient, hn, hs, if_false, h]

/-- A run that built a `Result` is a run whose loop ended with `break`. -/
theorem RunClient_result_inv (fuel : Nat) (cfg : ClientConfig) (w : World) (run : ClientRun)
    (res : Result) (h : RunClient fuel cfg w = some run) (hres : run.result = some res) :
    w.POD_NAME ≠ "" ∧ w.POD_NAMESPACE ≠ "" ∧
      ∃ s, probeLoop cfg w fuel 0 (initState w) = some (none, s) ∧ run = submitRun cfg w s := by
  by_cases hn : w.POD_NAME = ""
  · simp [RunClient, hn] at h; subst h; simp at hres
  · by_cases hs : w.POD_NAMESPACE = ""
    · simp [RunClient, hn, hs] at h; subst h; simp at hres
    · refine ⟨hn, hs, ?_⟩
      cases hl : probeLoop cfg w fuel 0 (initState w) with
      | none =>
        have hl2 := hl
        unfold initState at hl2
        simp [RunClient, hn, hs, hl2] at h
      | some p =>
        obtain ⟨oe, s⟩ := p
        cases oe with
        | some e =>
          rw [RunClient_of_error fuel cfg w s e hn hs hl] at h
          simp at h; subst h; simp at hres
        | none =>
          rw [RunClient_of_break fuel cfg w s hn hs hl] at h
          exact ⟨s, rfl, by simpa using h.symm⟩

/-! ## The loop invariant -/

theorem dialCount_append (a b : List Event) :
    dialCount (a ++ b) = dialCount a + dialCount b := by
  simp [dialCount]

theorem sleepCount_append (a b : List Event) :
    sleepCount (a ++ b) = sleepCount a + sleepCount b := by
  simp [sleepCount]

theorem postCount_append (a b : List Event) :
    postCount (a ++ b) = postCount a + postCount b := by
  simp [postCount]

theorem httpCount_append (a b : List Event) :
    httpCount (a ++ b) = httpCount a + httpCount b := by
  simp [httpCount]

theorem postCount_le_httpCount (tr : List Event) : postCount tr ≤ httpCount tr := by
  induction tr with
  | nil => simp [postCount, httpCount]
  | cons e tr ih =>
    unfold postCount httpCount at ih ⊢
    cases e with
    | request req =>
      by_cases hm : req.Method = "POST"
      · simp [List.filter_cons, hm]
        exact ih
      · simp [List.filter_cons, hm]
        omega
    | sleep d => simpa [List.filter_cons] using ih
    | dial a => simpa [List.filter_cons] using ih
    | readLine => simpa [List.filter_cons] using ih
    | close => simpa [List.filter_cons] using ih

theorem postCount_eq_zero {tr : List Event} (h : httpCount tr = 0) : postCount tr = 0 := by
  have := postCount_le_httpCount tr
  omega

theorem Inv_init (w : World) : Inv w 0 (initState w) := by
  constructor <;> simp [initState, iterStart, dialCount, sleepCount, httpCount]

theorem Inv_stepWrong (cfg : ClientConfig) (w : World) (i : Nat) (s : LoopState)
    (h : Inv w i s) : Inv w (i + 1) (stepWrong cfg w i s) := by
  obtain ⟨hm, hc, hd, hsl, hp, hnap⟩ := h
  rcases Nat.eq_zero_or_pos i with hi | hi
  · subst hi
    constructor
    · simp [stepWrong, hm]
    · simp [stepWrong, hm, hc, iterStart]
    · simp [stepWrong, hm, dialCount_append, hd]; simp [dialCount]
    · simp [stepWrong, hm, sleepCount_append, hsl]; simp [sleepCount]
    · simp [stepWrong, hm, httpCount_append, hp]; simp [httpCount]
    · intro d hmem
      simp [stepWrong, hm] at hmem
      exact hnap d hmem
  · have hpos : s.numMissed > 0 := by rw [hm]; exact_mod_cast hi
    constructor
    · simp [stepWrong, hm]
    · simp [stepWrong, hpos, hc, iterStart, hi]
    · simp [stepWrong, hpos, dialCount_append, hd]; simp [dialCount]
    · simp [stepWrong, hpos, sleepCount_append, hsl]; simp [sleepCount]; omega
    · simp [stepWrong, hpos, httpCount_append, hp]; simp [httpCount]
    · intro d hmem
      simp [stepWrong, hpos] at hmem
      rcases hmem with hmem | hmem
      · exact hnap d hmem
      · exact hmem

theorem Inv_iterWrong (cfg : ClientConfig) (w : World) (n : Nat) :
    ∀ (i : Nat) (s : LoopState), Inv w i s → Inv w (i + n) (iterWrong cfg w n i s) := by
  induction n with
  | zero => intro i s h; simpa [iterWrong] using h
  | succ n ih =>
    intro i s h
    have := ih (i + 1) _ (Inv_stepWrong cfg w i s h)
    rw [show i + 1 + n = i + (n + 1) by omega] at this
    exact this

/-- The state in which iteration `n` begins when `RunClient` has seen `n` incorrect
replies. -/
theorem Inv_reached (cfg : ClientConfig) (w : World) (n : Nat) :
    Inv w n (iterWrong cfg w n 0 (initState w)) := by
  simpa using Inv_iterWrong cfg w n 0 (initState w) (Inv_init w)

theorem sleepCount_headSleep (n : Nat) : sleepCount (headSleep n) = if 0 < n then 1 else 0 := by
  by_cases h : 0 < n <;> simp [headSleep, sleepCount, h]

theorem stepRight_facts (cfg : ClientConfig) (w : World) (n : Nat) (s : LoopState)
    (h : Inv w n s) :
    (stepRight cfg w n s).numMissed = (n : Int)
      ∧ (stepRight cfg w n s).endTime = dialDone w n
      ∧ (stepRight cfg w n s).trace
          = (s.trace ++ headSleep n) ++ [Event.dial cfg.ExternalTargetAddr, Event.readLine, Event.close] := by
  obtain ⟨hm, hc, -, -, -, -⟩ := h
  rcases Nat.eq_zero_or_pos n with hi | hi
  · subst hi
    simp [stepRight, stepWrong, hm, hc, dialDone, headSleep]
  · have hpos : s.numMissed > 0 := by rw [hm]; exact_mod_cast hi
    simp [stepRight, stepWrong, hpos, hm, hc, dialDone, headSleep, hi]

theorem stepFail_facts (cfg : ClientConfig) (w : World) (n : Nat) (s : LoopState)
    (h : Inv w n s) :
    (stepFail cfg w n s).numMissed = (n : Int)
      ∧ (stepFail cfg w n s).trace
          = (s.trace ++ headSleep n) ++ [Event.dial cfg.ExternalTargetAddr] := by
  obtain ⟨hm, -, -, -, -, -⟩ := h
  rcases Nat.eq_zero_or_pos n with hi | hi
  · subst hi
    simp [stepFail, hm, headSleep]
  · have hpos : s.numMissed > 0 := by rw [hm]; exact_mod_cast hi
    simp [stepFail, hpos, hm, headSleep, hi]

theorem iterStart_mono (w : World) (hclk : w.clockMonotone) (n : Nat) :
    w.startClock ≤ iterStart w n := by
  induction n with
  | zero => simp [iterStart]
  | succ n ih =>
    obtain ⟨h1, h2, h3⟩ := hclk n
    by_cases hn : 0 < n
    · simp only [iterStart, hn, if_true]; omega
    · simp only [iterStart, hn, if_false]; omega

theorem iterStart_backoff (w : World) (hclk : w.clockMonotone) (hsl : w.sleepHonoured)
    (n : Nat) : w.startClock + ((n : Int) - 1) * backoff ≤ iterStart w n := by
  induction n with
  | zero => simp [iterStart, backoff, Millisecond]
  | succ n ih =>
    obtain ⟨h1, h2, h3⟩ := hclk n
    have h4 := hsl n
    by_cases hn : 0 < n
    · simp only [iterStart, hn, if_true]
      push_cast
      have : ((n : Int) + 1 - 1) * backoff = ((n : Int) - 1) * backoff + backoff := by ring
      omega
    · have hz : n = 0 := by omega
      subst hz
      simp only [iterStart]
      simp
      omega

theorem dialDone_backoff (w : World) (hclk : w.clockMonotone) (hsl : w.sleepHonoured)
    (n : Nat) : w.startClock + (n : Int) * backoff ≤ dialDone w n := by
  have h0 := iterStart_backoff w hclk hsl n
  obtain ⟨h1, h2, h3⟩ := hclk n
  have h4 := hsl n
  by_cases hn : 0 < n
  · simp only [dialDone, hn, if_true]
    have : (n : Int) * backoff = ((n : Int) - 1) * backoff + backoff := by ring
    omega
  · have hz : n = 0 := by omega
    subst hz
    simp only [dialDone, iterStart]
    simp
    omega

theorem dialDone_mono (w : World) (hclk : w.clockMonotone) (n : Nat) :
    w.startClock ≤ dialDone w n := by
  have h0 := iterStart_mono w hclk n
  obtain ⟨h1, h2, h3⟩ := hclk n
  by_cases hn : 0 < n
  · simp only [dialDone, hn, if_true]; omega
  · simp only [dialDone, hn, if_false]; omega

/-! ## Runs of `RunClient` in closed form -/

theorem RunClient_success (fuel : Nat) (cfg : ClientConfig) (w : World) (n : Nat)
    (hn : w.POD_NAME ≠ "") (hs : w.POD_NAMESPACE ≠ "")
    (hw : ∀ j, j < n → (w.attempts j).incorrect = true)
    (hr : (w.attempts n).correct = true) (hfuel : n < fuel) :
    RunClient fuel cfg w
      = some (submitRun cfg w (stepRight cfg w n (iterWrong cfg w n 0 (initState w)))) :=
  RunClient_of_break fuel cfg w _ hn hs (probeLoop_success cfg w n fuel _ hw hr hfuel)

theorem RunClient_dialError (fuel : Nat) (cfg : ClientConfig) (w : World) (n : Nat)
    (e : String) (hn : w.POD_NAME ≠ "") (hs : w.POD_NAMESPACE ≠ "")
    (hw : ∀ j, j < n → (w.attempts j).incorrect = true)
    (hd : (w.attempts n).dial = DialResult.failed e) (hfuel : n < fuel) :
    RunClient fuel cfg w
      = some { err := some (ClientError.dial e), result := none, startTime := w.startClock,
               final := stepFail cfg w n (iterWrong cfg w n 0 (initState w)) } :=
  RunClient_of_error fuel cfg w _ _ hn hs (probeLoop_dialError cfg w n fuel _ e hw hd hfuel)

/-- Every run that built a `Result` has the closed form of `RunClient_success`. -/
theorem RunClient_result_form (fuel : Nat) (cfg : ClientConfig) (w : World) (run : ClientRun)
    (res : Result) (h : RunClient fuel cfg w = some run) (hres : run.result = some res) :
    ∃ n, n < fuel ∧ (∀ j, j < n → (w.attempts j).incorrect = true)
      ∧ (w.attempts n).correct = true
      ∧ run = submitRun cfg w (stepRight cfg w n (iterWrong cfg w n 0 (initState w)))
      ∧ res = buildResult w (stepRight cfg w n (iterWrong cfg w n 0 (initState w))) := by
  obtain ⟨hn, hs, s, hl, hrun⟩ := RunClient_result_inv fuel cfg w run res h hres
  obtain ⟨n, hfuel, hw, hr⟩ := probeLoop_break_inv cfg w fuel 0 _ s hl
  have hw0 : ∀ j, j < n → (w.attempts j).incorrect = true := by
    intro j hj; simpa using hw j hj
  have hr0 : (w.attempts n).correct = true := by simpa using hr
  have hl2 := probeLoop_success cfg w n fuel (initState w) hw0 hr0 hfuel
  rw [hl] at hl2
  have hse : s = stepRight cfg w n (iterWrong cfg w n 0 (initState w)) := by
    simpa using hl2
  subst hse
  refine ⟨n, hfuel, hw0, hr0, hrun, ?_⟩
  subst hrun
  simpa [submitRun] using hres.symm

theorem successTrace_counts (cfg : ClientConfig) (w : World) (n : Nat) :
    dialCount ((iterWrong cfg w n 0 (initState w)).trace ++ headSleep n) = n
      ∧ sleepCount ((iterWrong cfg w n 0 (initState w)).trace ++ headSleep n) = n
      ∧ httpCount ((iterWrong cfg w n 0 (initState w)).trace ++ headSleep n) = 0 := by
  obtain ⟨-, -, hd, hsl, hp, -⟩ := Inv_reached cfg w n
  refine ⟨?_, ?_, ?_⟩
  · rw [dialCount_append, hd]
    by_cases h : 0 < n <;> simp [headSleep, dialCount, h]
  · rw [sleepCount_append, hsl, sleepCount_headSleep]
    by_cases h : 0 < n
    · simp [h]; omega
    · simp [h]; omega
  · rw [httpCount_append, hp]
    by_cases h : 0 < n <;> simp [headSleep, httpCount, h]

theorem clientID_eq (w : World) (s : LoopState) :
    (buildResult w s).ClientID = w.POD_NAMESPACE ++ "/" ++ w.POD_NAME := by
  simp [buildResult, String.intercalate, String.intercalate.go]

theorem clientID_ne_empty (a b : String) : a ++ "/" ++ b ≠ "" := by
  intro h
  have hl := congrArg String.length h
  simp only [String.length_append] at hl
  have h1 : "/".length = 1 := rfl
  have h0 : "".length = 0 := rfl
  omega


/-! ## Lemmas on `http.Post` -/

theorem redirectBehavior_none (m : String) (resp : HTTPResponse)
    (h : ¬ isRedirectStatus resp.StatusCode) : redirectBehavior m resp = none := by
  unfold isRedirectStatus at h
  unfold redirectBehavior
  rw [if_neg (by tauto), if_neg (by tauto)]

theorem clientDo_failed (w : World) (body : Result) (budget k : Nat) (ib : Bool)
    (req : HTTPRequest) (e : String) (h : w.collector k req = RoundTrip.failed e) :
    clientDo w body (budget + 1) k ib req = ([Event.request req], PostResult.failed e) := by
  simp [clientDo, h]

theorem clientDo_final (w : World) (body : Result) (budget k : Nat) (ib : Bool)
    (req : HTTPRequest) (resp : HTTPResponse) (h : w.collector k req = RoundTrip.response resp)
    (hfin : ¬ isRedirectStatus resp.StatusCode ∨ resp.Location = LocationHeader.absent) :
    clientDo w body (budget + 1) k ib req
      = ([Event.request req], PostResult.response resp.StatusCode) := by
  rcases hfin with hfin | hfin
  · simp [clientDo, h, redirectBehavior_none _ _ hfin]
  · cases hr : redirectBehavior req.Method resp with
    | none => simp [clientDo, h, hr]
    | some p => simp [clientDo, h, hr, hfin]

/-- The requests of one call: the first is the given one, there are at most
`budget` of them, and nothing else happens. -/
theorem clientDo_trace (w : World) (body : Result) :
    ∀ (budget k : Nat) (ib : Bool) (req : HTTPRequest),
      httpCount (clientDo w body budget k ib req).1 ≤ budget
        ∧ dialCount (clientDo w body budget k ib req).1 = 0
        ∧ sleepCount (clientDo w body budget k ib req).1 = 0
        ∧ (∀ d, Event.sleep d ∉ (clientDo w body budget k ib req).1)
        ∧ (0 < budget →
            ∃ rest, (clientDo w body budget k ib req).1 = Event.request req :: rest) := by
  intro budget
  induction budget with
  | zero =>
    intro k ib req
    simp [clientDo, httpCount, dialCount, sleepCount]
  | succ budget ih =>
    intro k ib req
    cases hc : w.collector k req with
    | failed e =>
      rw [clientDo_failed w body budget k ib req e hc]
      simp [httpCount, dialCount, sleepCount]
    | response resp =>
      cases hr : redirectBehavior req.Method resp with
      | none => simp [clientDo, hc, hr, httpCount, dialCount, sleepCount]
      | some p =>
        obtain ⟨method, onHop⟩ := p
        cases hl : resp.Location with
        | absent => simp [clientDo, hc, hr, hl, httpCount, dialCount, sleepCount]
        | invalid => simp [clientDo, hc, hr, hl, httpCount, dialCount, sleepCount]
        | target u =>
          obtain ⟨h1, h2, h3, h4, -⟩ := ih (k + 1) (ib && onHop)
            { Method := method, URL := u,
              body := if (ib && onHop) = true then some body else none }
          simp only [clientDo, hc, hr, hl]
          refine ⟨?_, ?_, ?_, ?_, ?_⟩
          · unfold httpCount at h1 ⊢
            simp only [List.filter_cons, if_true, List.length_cons]
            omega
          · unfold dialCount at h2 ⊢
            simpa [List.filter_cons] using h2
          · unfold sleepCount at h3 ⊢
            simpa [List.filter_cons] using h3
          · intro d hd
            simp only [List.mem_cons] at hd
            rcases hd with hd | hd
            · cases hd
            · exact h4 d hd
          · intro _
            exact ⟨_, rfl⟩

theorem httpPost_parsed (w : World) (url : String) (body : Result)
    (h : w.urlParses url = true) :
    httpPost w url body
      = clientDo w body 10 0 true { Method := "POST", URL := url, body := some body } := by
  unfold httpPost
  rw [if_pos h]

theorem httpPost_unparsed (w : World) (url : String) (body : Result)
    (h : w.urlParses url = false) :
    httpPost w url body = ([], PostResult.failed "parse: invalid URL") := by
  unfold httpPost
  rw [if_neg (by simp [h])]

theorem httpPost_trace (w : World) (url : String) (body : Result) :
    httpCount (httpPost w url body).1 ≤ 10
      ∧ dialCount (httpPost w url body).1 = 0
      ∧ sleepCount (httpPost w url body).1 = 0
      ∧ (∀ d, Event.sleep d ∉ (httpPost w url body).1)
      ∧ (w.urlParses url = true → ∃ rest, (httpPost w url body).1
          = Event.request { Method := "POST", URL := url, body := some body } :: rest) := by
  by_cases hu : w.urlParses url = true
  · obtain ⟨h1, h2, h3, h4, h5⟩ := clientDo_trace w body 10 0 true
      { Method := "POST", URL := url, body := some body }
    rw [httpPost_parsed w url body hu]
    exact ⟨h1, h2, h3, h4, fun _ => h5 (by norm_num)⟩
  · have hf : w.urlParses url = false := by simpa using hu
    rw [httpPost_unparsed w url body hf]
    exact ⟨by simp [httpCount], by simp [dialCount], by simp [sleepCount], by simp,
      fun h => absurd h hu⟩


/-! ## Facts on the example inputs -/

theorem incorrect_of_EOF (a : Attempt) (reply : String)
    (h : a.dial = DialResult.connected reply (some ReadError.EOF)) (hr : reply ≠ "pong\n") :
    a.incorrect = true := by
  simp [Attempt.incorrect, h, fatalRead, hr]

theorem exampleWorld_incorrect : ∀ j, j < 2 → (exampleWorld.attempts j).incorrect = true := by
  decide

theorem exampleWorld_clock : exampleWorld.clockMonotone := by
  intro i
  simp only [exampleWorld]
  split_ifs <;> decide

theorem exampleWorld_sleep : exampleWorld.sleepHonoured := by
  intro i
  simp only [exampleWorld, backoff, Millisecond]
  split_ifs <;> decide

/-! ## The state in which the loop ends -/

theorem breakState_trace (cfg : ClientConfig) (w : World) (n : Nat) :
    (breakState cfg w n).trace
      = ((iterWrong cfg w n 0 (initState w)).trace ++ headSleep n)
        ++ [Event.dial cfg.ExternalTargetAddr, Event.readLine, Event.close] :=
  (stepRight_facts cfg w n _ (Inv_reached cfg w n)).2.2

theorem breakState_dialCount (cfg : ClientConfig) (w : World) (n : Nat) :
    dialCount (breakState cfg w n).trace = n + 1 := by
  rw [breakState_trace, dialCount_append, (successTrace_counts cfg w n).1]
  simp [dialCount]

theorem breakState_httpCount (cfg : ClientConfig) (w : World) (n : Nat) :
    httpCount (breakState cfg w n).trace = 0 := by
  rw [breakState_trace, httpCount_append, (successTrace_counts cfg w n).2.2]
  simp [httpCount]

theorem breakState_naps (cfg : ClientConfig) (w : World) (n : Nat) (d : Int)
    (h : Event.sleep d ∈ (breakState cfg w n).trace) : d = backoff := by
  rw [breakState_trace] at h
  have hnap := (Inv_reached cfg w n).naps
  by_cases hn : 0 < n
  · simp [headSleep, hn] at h
    rcases h with h | h
    · exact hnap d h
    · exact h
  · simp [headSleep, hn] at h
    exact hnap d h

theorem breakState_endTime (cfg : ClientConfig) (w : World) (n : Nat) :
    (breakState cfg w n).endTime = dialDone w n :=
  (stepRight_facts cfg w n _ (Inv_reached cfg w n)).2.1

theorem breakState_delay (cfg : ClientConfig) (w : World) (n : Nat) :
    (buildResult w (breakState cfg w n)).MasqueradeDelay
      = Seconds (Sub (dialDone w n) w.startClock) := by
  simp only [buildResult, breakState_endTime]

theorem submitRun_dialCount (cfg : ClientConfig) (w : World) (n : Nat) :
    dialCount (submitRun cfg w (breakState cfg w n)).final.trace = n + 1 := by
  simp only [submitRun]
  rw [dialCount_append, breakState_dialCount, (httpPost_trace w _ _).2.1]

/-! ## The prober: claims -/

/-- C1: when every dial succeeds, the first `N` replies are incorrect (a line other
than `pong\n`, or an empty or partial line ended by a clean end-of-stream) and reply
`N + 1` is exactly `pong\n`, `RunClient` leaves its loop for any fuel above `N`, having
dialled exactly `N + 1` times, and builds a `Result` with `NumFailedRequests = N`. -/
theorem RunClient_counts_incorrect_replies (fuel : Nat) (cfg : ClientConfig) (w : World)
    (N : Nat) (hn : w.POD_NAME ≠ "") (hs : w.POD_NAMESPACE ≠ "")
    (hw : ∀ j, j < N → (w.attempts j).incorrect = true)
    (hr : (w.attempts N).correct = true) (hfuel : N < fuel) :
    ∃ run res, RunClient fuel cfg w = some run ∧ run.result = some res
      ∧ dialCount run.final.trace = N + 1 ∧ res.NumFailedRequests = (N : Int) := by
  obtain ⟨hm, -, -⟩ := stepRight_facts cfg w N _ (Inv_reached cfg w N)
  exact ⟨_, _, RunClient_success fuel cfg w N hn hs hw hr hfuel, rfl,
    submitRun_dialCount cfg w N, hm⟩

theorem RunClient_counts_incorrect_replies_witness :
    ∃ run res, RunClient 3 exampleCfg exampleWorld = some run ∧ run.result = some res
      ∧ dialCount run.final.trace = 2 + 1 ∧ res.NumFailedRequests = ((2 : Nat) : Int) :=
  RunClient_counts_incorrect_replies 3 exampleCfg exampleWorld 2 (by decide) (by decide)
    (by decide) (by decide) (by decide)

/-- C2: when the first `k` dials succeed with incorrect replies and dial `k + 1` fails,
`RunClient` returns that dial error for any fuel above `k`: the failed dial is the
last effect and dial number `k + 1`, `numMissed` is still `k`, no `Result` is built
and nothing is posted, nor is any other HTTP request made. -/
theorem RunClient_dial_failure_is_fatal (fuel : Nat) (cfg : ClientConfig) (w : World)
    (k : Nat) (e : String) (hn : w.POD_NAME ≠ "") (hs : w.POD_NAMESPACE ≠ "")
    (hw : ∀ j, j < k → (w.attempts j).incorrect = true)
    (hd : (w.attempts k).dial = DialResult.failed e) (hfuel : k < fuel) :
    ∃ run pre, RunClient fuel cfg w = some run
      ∧ run.err = some (ClientError.dial e)
      ∧ run.final.trace = pre ++ [Event.dial cfg.ExternalTargetAddr]
      ∧ dialCount pre = k
      ∧ dialCount run.final.trace = k + 1
      ∧ run.final.numMissed = (k : Int)
      ∧ run.result = none
      ∧ postCount run.final.trace = 0
      ∧ httpCount run.final.trace = 0 := by
  obtain ⟨hm, ht⟩ := stepFail_facts cfg w k _ (Inv_reached cfg w k)
  obtain ⟨c1, -, c3⟩ := successTrace_counts cfg w k
  have hhttp : httpCount (stepFail cfg w k (iterWrong cfg w k 0 (initState w))).trace = 0 := by
    rw [ht, httpCount_append, c3]
    simp [httpCount]
  refine ⟨_, _, RunClient_dialError fuel cfg w k e hn hs hw hd hfuel, rfl, ht, c1, ?_, hm,
    rfl, postCount_eq_zero hhttp, hhttp⟩
  simp only []
  rw [ht, dialCount_append, c1]
  simp [dialCount]

theorem RunClient_dial_failure_is_fatal_witness :
    ∃ run pre, RunClient 2 exampleCfg refusedWorld = some run
      ∧ run.err = some (ClientError.dial "connect: connection refused")
      ∧ run.final.trace = pre ++ [Event.dial exampleCfg.ExternalTargetAddr]
      ∧ dialCount pre = 1
      ∧ dialCount run.final.trace = 1 + 1
      ∧ run.final.numMissed = ((1 : Nat) : Int)
      ∧ run.result = none
      ∧ postCount run.final.trace = 0
      ∧ httpCount run.final.trace = 0 :=
  RunClient_dial_failure_is_fatal 2 exampleCfg refusedWorld 1 "connect: connection refused"
    (by decide) (by decide) (by decide) (by decide) (by decide)

/-- C5: in every run of `RunClient` that builds a `Result`, the last dial is the one
whose reply was `pong\n`, and `MasqueradeDelay` is what `Duration.Seconds` returns for
the clock reading taken right after that dial minus the reading taken before the
first dial; with a clock that never runs backwards it is not negative. -/
theorem masqueradeDelay_is_last_dial_minus_start (fuel : Nat) (cfg : ClientConfig)
    (w : World) (run : ClientRun) (res : Result)
    (h : RunClient fuel cfg w = some run) (hres : run.result = some res) :
    (w.attempts (dialCount run.final.trace - 1)).correct = true
      ∧ run.final.endTime = dialDone w (dialCount run.final.trace - 1)
      ∧ run.startTime = w.startClock
      ∧ res.MasqueradeDelay
          = Seconds (Sub (dialDone w (dialCount run.final.trace - 1)) w.startClock)
      ∧ (w.clockMonotone → 0 ≤ res.MasqueradeDelay) := by
  obtain ⟨n, -, -, hr, hrun, hr2⟩ := RunClient_result_form fuel cfg w run res h hres
  have hcount : dialCount run.final.trace - 1 = n := by
    rw [hrun]
    have := submitRun_dialCount cfg w n
    unfold breakState at this
    rw [this]
    simp
  have hdelay := breakState_delay cfg w n
  have hend := breakState_endTime cfg w n
  unfold breakState at hdelay hend
  rw [hcount, hr2, hdelay]
  refine ⟨hr, ?_, ?_, rfl, ?_⟩
  · rw [hrun]
    exact hend
  · rw [hrun]
    rfl
  · intro hclk
    apply Seconds_nonneg
    have hmono := dialDone_mono w hclk n
    unfold Sub
    omega

theorem masqueradeDelay_is_last_dial_minus_start_witness :
    (exampleWorld.attempts
        (dialCount (submitRun exampleCfg exampleWorld
          (breakState exampleCfg exampleWorld 2)).final.trace - 1)).correct = true
      ∧ (submitRun exampleCfg exampleWorld (breakState exampleCfg exampleWorld 2)).final.endTime
          = dialDone exampleWorld
              (dialCount (submitRun exampleCfg exampleWorld
                (breakState exampleCfg exampleWorld 2)).final.trace - 1)
      ∧ (submitRun exampleCfg exampleWorld (breakState exampleCfg exampleWorld 2)).startTime
          = exampleWorld.startClock
      ∧ (buildResult exampleWorld (breakState exampleCfg exampleWorld 2)).MasqueradeDelay
          = Seconds (Sub (dialDone exampleWorld
              (dialCount (submitRun exampleCfg exampleWorld
                (breakState exampleCfg exampleWorld 2)).final.trace - 1))
              exampleWorld.startClock)
      ∧ (exampleWorld.clockMonotone →
          0 ≤ (buildResult exampleWorld (breakState exampleCfg exampleWorld 2)).MasqueradeDelay) :=
  masqueradeDelay_is_last_dial_minus_start 3 exampleCfg exampleWorld
    (submitRun exampleCfg exampleWorld (breakState exampleCfg exampleWorld 2))
    (buildResult exampleWorld (breakState exampleCfg exampleWorld 2))
    (RunClient_success 3 exampleCfg exampleWorld 2 (by decide) (by decide)
      exampleWorld_incorrect (by decide) (by decide))
    rfl

/-- In `exampleWorld` the three candidate readings differ: the duration of
109300000 ns is measured to the last dial, neither to the first dial nor to the end
of the last read. -/
theorem exampleWorld_readings :
    dialDone exampleWorld 2 - exampleWorld.startClock = 109300000
      ∧ dialDone exampleWorld 0 - exampleWorld.startClock = 2000000
      ∧ readDone exampleWorld 2 - exampleWorld.startClock = 113300000 := by
  decide

/-- C6: when the prober receives exactly `N` incorrect replies before the correct one,
the clock never runs backwards and every sleep lasts at least the 50 ms asked for,
then exactly `N` sleeps and `N` dials precede the final dial and none follows it,
every sleep is asked to last 50 ms, the duration from the start to the last dial is
at least `N` times 50 ms, and the reported delay, which is `Duration.Seconds` of that
duration, is at least `Duration.Seconds` of `N` times 50 ms. -/
theorem delay_at_least_backoff_per_failure (fuel : Nat) (cfg : ClientConfig) (w : World)
    (N : Nat) (hn : w.POD_NAME ≠ "") (hs : w.POD_NAMESPACE ≠ "")
    (hw : ∀ j, j < N → (w.attempts j).incorrect = true)
    (hr : (w.attempts N).correct = true) (hfuel : N < fuel)
    (hclk : w.clockMonotone) (hsl : w.sleepHonoured) :
    ∃ run res pre rest, RunClient fuel cfg w = some run ∧ run.result = some res
      ∧ run.final.trace = pre ++ Event.dial cfg.ExternalTargetAddr :: rest
      ∧ sleepCount pre = N ∧ dialCount pre = N
      ∧ sleepCount rest = 0 ∧ dialCount rest = 0
      ∧ sleepCount run.final.trace = N
      ∧ (∀ d, Event.sleep d ∈ run.final.trace → d = 50 * Millisecond)
      ∧ (N : Int) * (50 * Millisecond) ≤ Sub run.final.endTime run.startTime
      ∧ res.MasqueradeDelay = Seconds (Sub run.final.endTime run.startTime)
      ∧ (Sub run.final.endTime run.startTime < 2 ^ 63 →
          Seconds ((N : Int) * (50 * Millisecond)) ≤ res.MasqueradeDelay) := by
  obtain ⟨c1, c2, -⟩ := successTrace_counts cfg w N
  obtain ⟨-, p2, p3, p4, -⟩ := httpPost_trace w (resultURL cfg)
    (buildResult w (breakState cfg w N))
  have ht := breakState_trace cfg w N
  have hend := breakState_endTime cfg w N
  have hnaps := breakState_naps cfg w N
  have hb := dialDone_backoff w hclk hsl N
  have hdur : (N : Int) * (50 * Millisecond) ≤ Sub (dialDone w N) w.startClock := by
    unfold Sub
    unfold backoff at hb
    omega
  have hrun := RunClient_success fuel cfg w N hn hs hw hr hfuel
  refine ⟨submitRun cfg w (breakState cfg w N), buildResult w (breakState cfg w N),
    (iterWrong cfg w N 0 (initState w)).trace ++ headSleep N,
    [Event.readLine, Event.close]
      ++ (httpPost w (resultURL cfg) (buildResult w (breakState cfg w N))).1,
    hrun, rfl, ?_, c2, c1, ?_, ?_, ?_, ?_, ?_, ?_, ?_⟩
  · simp only [submitRun]
    rw [ht]
    simp
  · rw [sleepCount_append, p3]
    simp [sleepCount]
  · rw [dialCount_append, p2]
    simp [dialCount]
  · simp only [submitRun]
    rw [ht, sleepCount_append, sleepCount_append, c2, p3]
    simp [sleepCount]
  · intro d hd
    simp only [submitRun, List.mem_append] at hd
    rcases hd with hd | hd
    · exact hnaps d hd
    · exact absurd hd (p4 d)
  · simp only [submitRun]
    rw [hend]
    exact hdur
  · simp only [submitRun, buildResult]
  · intro hrange
    simp only [submitRun, buildResult] at hrange ⊢
    rw [hend] at hrange ⊢
    apply Seconds_mono _ hdur (by norm_num at hrange ⊢; exact hrange)
    have : (0 : Int) ≤ (N : Int) := Int.ofNat_nonneg N
    unfold Millisecond
    positivity

theorem delay_at_least_backoff_per_failure_witness :
    ∃ run res pre rest, RunClient 3 exampleCfg exampleWorld = some run ∧ run.result = some res
      ∧ run.final.trace = pre ++ Event.dial exampleCfg.ExternalTargetAddr :: rest
      ∧ sleepCount pre = 2 ∧ dialCount pre = 2
      ∧ sleepCount rest = 0 ∧ dialCount rest = 0
      ∧ sleepCount run.final.trace = 2
      ∧ (∀ d, Event.sleep d ∈ run.final.trace → d = 50 * Millisecond)
      ∧ ((2 : Nat) : Int) * (50 * Millisecond) ≤ Sub run.final.endTime run.startTime
      ∧ res.MasqueradeDelay = Seconds (Sub run.final.endTime run.startTime)
      ∧ (Sub run.final.endTime run.startTime < 2 ^ 63 →
          Seconds (((2 : Nat) : Int) * (50 * Millisecond)) ≤ res.MasqueradeDelay) :=
  delay_at_least_backoff_per_failure 3 exampleCfg exampleWorld 2 (by decide) (by decide)
    (by decide) (by decide) (by decide) exampleWorld_clock exampleWorld_sleep

/-- C7, counterexample: in `redirectWorld` the collector answers the POST with status
307 and a `Location`; the default client sends the POST again, the second answer is
202, and `RunClient` returns `nil` after two POSTs, although the status of the first
response is not 202. -/
theorem redirect_resends_post :
    ∃ run res, RunClient 3 exampleCfg redirectWorld = some run ∧ run.result = some res
      ∧ redirectWorld.collector 0 (firstRequest exampleCfg res)
          = RoundTrip.response
              { StatusCode := 307
                Location := LocationHeader.target "http://10.0.0.10:2112/result" }
      ∧ postCount run.final.trace = 2
      ∧ run.err = none := by
  have hrun := RunClient_success 3 exampleCfg redirectWorld 2 (by decide) (by decide)
    exampleWorld_incorrect (by decide) (by decide)
  have hp := breakState_httpCount exampleCfg redirectWorld 2
  unfold breakState at hp
  refine ⟨_, _, hrun, rfl, rfl, ?_, ?_⟩
  · simp only [submitRun]
    rw [postCount_append, postCount_eq_zero hp]
    rfl
  · rfl

/-- C7, amended: a run of `RunClient` that builds a `Result` calls `http.Post` once:
the HTTP requests of the run are those of that one call, at most ten, and
`RunClient` returns `nil` exactly when the call returns a response with status 202.
When the collector address does not parse, nothing is sent and the submit error is
returned. When it parses, the call begins with a POST of the result; and when the
first round trip fails, or its response is not a redirect (301, 302, 303, 307,
308) or has no `Location`, exactly one request is made, the POST, and `RunClient`
returns `nil` exactly when the status is 202, the submit error for a failed round
trip and the status error for any other status. -/
theorem submission_one_call_and_only_202_succeeds (fuel : Nat) (cfg : ClientConfig)
    (w : World) (run : ClientRun) (res : Result)
    (h : RunClient fuel cfg w = some run) (hres : run.result = some res) :
    (∃ pre, run.final.trace = pre ++ (httpPost w (resultURL cfg) res).1 ∧ httpCount pre = 0)
      ∧ httpCount run.final.trace ≤ 10
      ∧ (run.err = none ↔ (httpPost w (resultURL cfg) res).2 = PostResult.response 202)
      ∧ (w.urlParses (resultURL cfg) = false →
          httpCount run.final.trace = 0 ∧ ∃ e, run.err = some (ClientError.submit e))
      ∧ (w.urlParses (resultURL cfg) = true →
          (∃ pre rest, run.final.trace = pre ++ Event.request (firstRequest cfg res) :: rest
            ∧ httpCount pre = 0)
          ∧ 1 ≤ postCount run.final.trace
          ∧ (∀ e, w.collector 0 (firstRequest cfg res) = RoundTrip.failed e →
              httpCount run.final.trace = 1 ∧ postCount run.final.trace = 1
                ∧ run.err = some (ClientError.submit e))
          ∧ (∀ resp, w.collector 0 (firstRequest cfg res) = RoundTrip.response resp →
              (¬ isRedirectStatus resp.StatusCode ∨ resp.Location = LocationHeader.absent) →
              httpCount run.final.trace = 1 ∧ postCount run.final.trace = 1
                ∧ (run.err = none ↔ resp.StatusCode = 202)
                ∧ (resp.StatusCode ≠ 202 →
                    run.err = some (ClientError.unexpectedStatus resp.StatusCode)))) := by
  obtain ⟨n, -, -, -, hrun, hr2⟩ := RunClient_result_form fuel cfg w run res h hres
  have hp := breakState_httpCount cfg w n
  unfold breakState at hp
  subst hrun
  subst hr2
  obtain ⟨q1, -, -, -, hfirst⟩ := httpPost_trace w (resultURL cfg)
    (buildResult w (stepRight cfg w n (iterWrong cfg w n 0 (initState w))))
  have hone : ∀ ev out,
      httpPost w (resultURL cfg)
          (buildResult w (stepRight cfg w n (iterWrong cfg w n 0 (initState w))))
        = ([Event.request ev], out) → ev.Method = "POST" →
      httpCount (submitRun cfg w
          (stepRight cfg w n (iterWrong cfg w n 0 (initState w)))).final.trace = 1
        ∧ postCount (submitRun cfg w
          (stepRight cfg w n (iterWrong cfg w n 0 (initState w)))).final.trace = 1 := by
    intro ev out hpost hev
    simp only [submitRun, hpost]
    rw [httpCount_append, postCount_append, hp, postCount_eq_zero hp]
    simp [httpCount, postCount, hev]
  refine ⟨⟨_, rfl, hp⟩, ?_, ?_, ?_, ?_⟩
  · simp only [submitRun]
    rw [httpCount_append, hp]
    omega
  · simp only [submitRun]
    cases hpost : (httpPost w (resultURL cfg)
        (buildResult w (stepRight cfg w n (iterWrong cfg w n 0 (initState w))))).2 with
    | failed e => simp [postErr]
    | response code => by_cases hc : code = 202 <;> simp [postErr, hc]
  · intro hbad
    have hpost := httpPost_unparsed w (resultURL cfg)
      (buildResult w (stepRight cfg w n (iterWrong cfg w n 0 (initState w)))) hbad
    constructor
    · simp only [submitRun, hpost]
      rw [httpCount_append, hp]
      simp [httpCount]
    · refine ⟨"parse: invalid URL", ?_⟩
      simp only [submitRun, hpost, postErr]
  · intro hok
    obtain ⟨rest, hrest⟩ := hfirst hok
    have hparsed := httpPost_parsed w (resultURL cfg)
      (buildResult w (stepRight cfg w n (iterWrong cfg w n 0 (initState w)))) hok
    refine ⟨⟨_, rest, ?_, hp⟩, ?_, ?_, ?_⟩
    · simp only [submitRun, hrest, firstRequest]
    · simp only [submitRun, hrest]
      rw [postCount_append]
      simp [postCount, List.filter_cons]
      omega
    · intro e he
      have hpost := clientDo_failed w
        (buildResult w (stepRight cfg w n (iterWrong cfg w n 0 (initState w)))) 9 0 true _ e he
      have hpost2 : httpPost w (resultURL cfg)
          (buildResult w (stepRight cfg w n (iterWrong cfg w n 0 (initState w))))
          = ([Event.request (firstRequest cfg
              (buildResult w (stepRight cfg w n (iterWrong cfg w n 0 (initState w)))))],
             PostResult.failed e) := by
        rw [hparsed]
        exact hpost
      obtain ⟨a1, a2⟩ := hone _ _ hpost2 rfl
      refine ⟨a1, a2, ?_⟩
      simp only [submitRun, hpost2, postErr]
    · intro resp he hfin
      have hpost := clientDo_final w
        (buildResult w (stepRight cfg w n (iterWrong cfg w n 0 (initState w)))) 9 0 true _
        resp he hfin
      have hpost2 : httpPost w (resultURL cfg)
          (buildResult w (stepRight cfg w n (iterWrong cfg w n 0 (initState w))))
          = ([Event.request (firstRequest cfg
              (buildResult w (stepRight cfg w n (iterWrong cfg w n 0 (initState w)))))],
             PostResult.response resp.StatusCode) := by
        rw [hparsed]
        exact hpost
      obtain ⟨a1, a2⟩ := hone _ _ hpost2 rfl
      refine ⟨a1, a2, ?_, ?_⟩
      · simp only [submitRun, hpost2, postErr]
        by_cases hc : resp.StatusCode = 202 <;> simp [hc]
      · intro hc
        simp only [submitRun, hpost2, postErr, hc, ne_eq, not_false_eq_true, if_true]

theorem submission_one_call_and_only_202_succeeds_witness :
    httpCount (submitRun exampleCfg okStatusWorld
        (breakState exampleCfg okStatusWorld 2)).final.trace = 1
      ∧ postCount (submitRun exampleCfg okStatusWorld
        (breakState exampleCfg okStatusWorld 2)).final.trace = 1
      ∧ (submitRun exampleCfg okStatusWorld (breakState exampleCfg okStatusWorld 2)).err
          = some (ClientError.unexpectedStatus 200) :=
  have key := ((submission_one_call_and_only_202_succeeds 3 exampleCfg okStatusWorld
    (submitRun exampleCfg okStatusWorld (breakState exampleCfg okStatusWorld 2))
    (buildResult okStatusWorld (breakState exampleCfg okStatusWorld 2))
    (RunClient_success 3 exampleCfg okStatusWorld 2 (by decide) (by decide)
      exampleWorld_incorrect (by decide) (by decide))
    rfl).2.2.2.2 rfl).2.2.2
    { StatusCode := 200, Location := LocationHeader.absent } rfl (Or.inr rfl)
  ⟨key.1, key.2.1, key.2.2.2 (by decide)⟩

/-- C8: when `POD_NAME` or `POD_NAMESPACE` is empty, `RunClient` returns an error
whatever the fuel, without a single effect (no dial, no POST) and without building a
`Result`; and every `Result` it builds, which needs both to be non-empty, has
`ClientID` equal to the namespace, then `/`, then the name, a non-empty string. -/
theorem identity_checked_first_and_joined (fuel : Nat) (cfg : ClientConfig) (w : World) :
    (w.POD_NAME = "" ∨ w.POD_NAMESPACE = "" →
      ∃ run, RunClient fuel cfg w = some run
        ∧ (run.err = some ClientError.podNameNotSet
            ∨ run.err = some ClientError.podNamespaceNotSet)
        ∧ run.final.trace = [] ∧ run.result = none)
      ∧ (∀ run res, RunClient fuel cfg w = some run → run.result = some res →
          w.POD_NAME ≠ "" ∧ w.POD_NAMESPACE ≠ ""
            ∧ res.ClientID = w.POD_NAMESPACE ++ "/" ++ w.POD_NAME ∧ res.ClientID ≠ "") := by
  constructor
  · intro hempty
    by_cases hn : w.POD_NAME = ""
    · simp only [RunClient, hn, if_true]
      exact ⟨_, rfl, Or.inl rfl, rfl, rfl⟩
    · have hs : w.POD_NAMESPACE = "" := hempty.resolve_left hn
      simp only [RunClient, hn, hs, if_true, if_false]
      exact ⟨_, rfl, Or.inr rfl, rfl, rfl⟩
  · intro run res h hres
    obtain ⟨hn, hs, -⟩ := RunClient_result_inv fuel cfg w run res h hres
    obtain ⟨n, -, -, -, -, hr2⟩ := RunClient_result_form fuel cfg w run res h hres
    have hid := clientID_eq w (stepRight cfg w n (iterWrong cfg w n 0 (initState w)))
    rw [← hr2] at hid
    exact ⟨hn, hs, hid, by rw [hid]; exact clientID_ne_empty _ _⟩

theorem identity_checked_first_and_joined_witness :
    (∃ run, RunClient 0 exampleCfg unnamedWorld = some run
        ∧ (run.err = some ClientError.podNameNotSet
            ∨ run.err = some ClientError.podNamespaceNotSet)
        ∧ run.final.trace = [] ∧ run.result = none)
      ∧ (buildResult exampleWorld (breakState exampleCfg exampleWorld 2)).ClientID
          = "default" ++ "/" ++ "client-0" :=
  ⟨(identity_checked_first_and_joined 0 exampleCfg unnamedWorld).1 (Or.inl rfl),
    ((identity_checked_first_and_joined 3 exampleCfg exampleWorld).2
      (submitRun exampleCfg exampleWorld (breakState exampleCfg exampleWorld 2))
      (buildResult exampleWorld (breakState exampleCfg exampleWorld 2))
      (RunClient_success 3 exampleCfg exampleWorld 2 (by decide) (by decide)
        exampleWorld_incorrect (by decide) (by decide))
      rfl).2.2.1⟩

/-! ## The collector: lemmas -/

theorem uint64OfFloat_natCast (k : ℕ) (h : k < 2 ^ 64) : uint64OfFloat (k : ℚ) = k := by
  unfold uint64OfFloat
  have hf : ⌊(k : ℚ)⌋ = (k : ℤ) := Int.floor_natCast k
  rw [hf, Int.toNat_ofNat, Nat.mod_eq_of_lt h]

/-- On a natural number that a `float64` holds exactly, `Add` takes the integer
path. -/
theorem counterAdd_natCast (c : Counter) (k : ℕ) (hk : float64 (k : ℚ) = (k : ℚ))
    (h : k < 2 ^ 64) :
    counterAdd c (k : ℚ) = some { c with valInt := (c.valInt + k) % 2 ^ 64 } := by
  have h0 : ¬ ((k : ℚ) < 0) := not_lt.mpr (Nat.cast_nonneg k)
  unfold counterAdd
  rw [if_neg h0, uint64OfFloat_natCast k h, if_pos hk]

theorem counterAdd_neg (c : Counter) (v : ℚ) (h : v < 0) : counterAdd c v = none := by
  unfold counterAdd
  rw [if_pos h]

/-- The conversion of a count that is not negative is a natural number that a
`float64` holds exactly. -/
theorem float64_count (n : ℤ) (h0 : 0 ≤ n) :
    ∃ k : ℕ, float64 (n : ℚ) = (k : ℚ) ∧ float64 (k : ℚ) = (k : ℚ) := by
  obtain ⟨m, rfl⟩ := Int.eq_ofNat_of_zero_le h0
  obtain ⟨k, hk⟩ := float64_natCast_isNat m
  refine ⟨k, by simpa using hk, ?_⟩
  rw [← hk, float64_idem]

theorem counterGet_mono (c : Counter) (a b : ℕ) (h : a ≤ b) :
    counterGet { c with valInt := a } ≤ counterGet { c with valInt := b } := by
  unfold counterGet
  apply float64_mono
  have hq : (a : ℚ) ≤ (b : ℚ) := by exact_mod_cast h
  have := float64_mono hq
  simp only
  linarith

/-- The handler on a POST whose body parses and whose count `Add` accepts. -/
theorem getResultHandler_accept (unmarshal : String → Option Result) (agg : Aggregates)
    (r : Request) (body : String) (res : Result) (c : Counter)
    (hm : r.Method = "POST") (hb : r.Body = BodyRead.ok body)
    (hp : unmarshal body = some res)
    (hadd : counterAdd agg.failedRequestsCounter (float64 (res.NumFailedRequests : ℚ))
      = some c) :
    getResultHandler unmarshal agg r
      = { status := 202, panicked := false,
          agg := { failedRequestsCounter := c,
                   masqueradeDelaySummary :=
                     agg.masqueradeDelaySummary ++ [res.MasqueradeDelay] } } := by
  simp only [getResultHandler, hm, hb, hp, hadd, summaryObserve]
  simp

theorem float64_oddCount :
    float64 (((9007199254740993 : ℤ) : ℚ)) = ((9007199254740992 : ℕ) : ℚ) := by
  have := float64_two_pow_53_succ
  norm_num at this ⊢
  exact this

theorem float64_maxCount :
    float64 (((9223372036854775807 : ℤ) : ℚ)) = ((9223372036854775808 : ℕ) : ℚ) := by
  have := float64_maxInt64
  norm_num at this ⊢
  exact this

theorem float64_two_pow_63 :
    float64 ((9223372036854775808 : ℕ) : ℚ) = ((9223372036854775808 : ℕ) : ℚ) := by
  have := roundPos_scaled (2 ^ 52) 11 (le_refl _) (by norm_num)
  have hpos : (0 : ℚ) < ((9223372036854775808 : ℕ) : ℚ) := by norm_num
  unfold float64
  rw [if_pos hpos]
  norm_num at this ⊢
  exact this

theorem exampleUnmarshal_oddBody :
    exampleUnmarshal oddBody
      = some { ClientID := "default/client-0", NumFailedRequests := 9007199254740993,
               MasqueradeDelay := 1 / 8 } := by
  unfold exampleUnmarshal
  rw [if_neg (by decide), if_neg (by decide), if_pos rfl]

theorem exampleUnmarshal_maxBody :
    exampleUnmarshal maxBody
      = some { ClientID := "default/client-0", NumFailedRequests := 9223372036854775807,
               MasqueradeDelay := 1 / 8 } := by
  unfold exampleUnmarshal
  rw [if_neg (by decide), if_neg (by decide), if_neg (by decide), if_pos rfl]

/-! ## The collector: claims -/

/-- C3, counterexample: a fresh collector that accepts a result with
`NumFailedRequests = 2^53 + 1` answers 202 and its counter stands at `2^53`
afterwards, one less than the count. -/
theorem accepted_count_is_rounded :
    exampleUnmarshal oddBody
        = some { ClientID := "default/client-0", NumFailedRequests := 9007199254740993,
                 MasqueradeDelay := 1 / 8 }
      ∧ (getResultHandler exampleUnmarshal freshAgg
          { Method := "POST", Body := BodyRead.ok oddBody }).status = 202
      ∧ (getResultHandler exampleUnmarshal freshAgg
          { Method := "POST", Body := BodyRead.ok oddBody }).agg.failedRequestsCounter
          = { valBits := 0, valInt := 9007199254740992 }
      ∧ counterGet freshAgg.failedRequestsCounter = 0
      ∧ counterGet (getResultHandler exampleUnmarshal freshAgg
          { Method := "POST", Body := BodyRead.ok oddBody }).agg.failedRequestsCounter
          = 9007199254740992
      ∧ counterGet (getResultHandler exampleUnmarshal freshAgg
          { Method := "POST", Body := BodyRead.ok oddBody }).agg.failedRequestsCounter
          ≠ counterGet freshAgg.failedRequestsCounter + 9007199254740993 := by
  have hk : float64 ((9007199254740992 : ℕ) : ℚ) = ((9007199254740992 : ℕ) : ℚ) :=
    float64_natCast_small _ (by norm_num)
  have hadd : counterAdd freshAgg.failedRequestsCounter
      (float64 ((9007199254740993 : ℤ) : ℚ))
      = some { valBits := 0, valInt := 9007199254740992 } := by
    rw [float64_oddCount,
      counterAdd_natCast freshAgg.failedRequestsCounter 9007199254740992 hk (by norm_num)]
    rfl
  have hrun : getResultHandler exampleUnmarshal freshAgg
      { Method := "POST", Body := BodyRead.ok oddBody }
      = { status := 202, panicked := false,
          agg := { failedRequestsCounter := { valBits := 0, valInt := 9007199254740992 },
                   masqueradeDelaySummary := [1 / 8] } } :=
    getResultHandler_accept exampleUnmarshal freshAgg _ oddBody _ _ rfl rfl
      exampleUnmarshal_oddBody hadd
  have hg0 : counterGet freshAgg.failedRequestsCounter = 0 := by
    simp [counterGet, freshAgg, float64_zero]
  have hg1 : counterGet { valBits := 0, valInt := 9007199254740992 } = 9007199254740992 := by
    simp only [counterGet, hk, zero_add]
    norm_num
  rw [hrun]
  refine ⟨exampleUnmarshal_oddBody, rfl, rfl, hg0, hg1, ?_⟩
  rw [hg0, hg1]
  norm_num

/-- C3, amended: for a request whose body the handler reads without error (which it
does for the method POST only) and which parses as a `Result` whose
`NumFailedRequests` is at least 0 and survives the conversion to `float64`
unchanged (as every count up to `2^53` does), the handler answers 202 and does not
panic, the 64-bit accumulator of the counter grows by exactly `NumFailedRequests`
modulo `2^64`, the summary gains the single observation `MasqueradeDelay`, and the
aggregates change in no other way. When the counter has only been fed integers and
the new total is at most `2^53`, the value a scrape reads grows by exactly
`NumFailedRequests`. The count is a Go `int`, hence below `2^63`. -/
theorem accepted_result_updates_aggregates (unmarshal : String → Option Result)
    (agg : Aggregates) (r : Request) (body : String) (res : Result)
    (hm : r.Method = "POST") (hb : r.Body = BodyRead.ok body)
    (hp : unmarshal body = some res) (hnn : 0 ≤ res.NumFailedRequests)
    (hint : res.NumFailedRequests < 2 ^ 63)
    (hrep : float64 (res.NumFailedRequests : ℚ) = (res.NumFailedRequests : ℚ)) :
    getResultHandler unmarshal agg r
      = { status := 202
          panicked := false
          agg :=
            { failedRequestsCounter :=
                { valBits := agg.failedRequestsCounter.valBits
                  valInt := (agg.failedRequestsCounter.valInt
                    + res.NumFailedRequests.toNat) % 2 ^ 64 }
              masqueradeDelaySummary := agg.masqueradeDelaySummary ++ [res.MasqueradeDelay] } }
      ∧ (agg.failedRequestsCounter.valBits = 0 →
          agg.failedRequestsCounter.valInt + res.NumFailedRequests.toNat ≤ 2 ^ 53 →
          counterGet (getResultHandler unmarshal agg r).agg.failedRequestsCounter
            = counterGet agg.failedRequestsCounter + (res.NumFailedRequests : ℚ)) := by
  obtain ⟨m, hmn⟩ := Int.eq_ofNat_of_zero_le hnn
  have hm63 : m < 2 ^ 64 := by
    rw [hmn] at hint
    have : (m : ℤ) < 2 ^ 64 := lt_trans hint (by norm_num)
    exact_mod_cast this
  have hk : float64 (m : ℚ) = (m : ℚ) := by
    rw [hmn] at hrep
    simpa using hrep
  have hv : float64 ((res.NumFailedRequests : ℤ) : ℚ) = (m : ℚ) := by
    rw [hmn]
    simpa using hk
  have htn : res.NumFailedRequests.toNat = m := by
    rw [hmn]
    simp
  have hadd : counterAdd agg.failedRequestsCounter (float64 (res.NumFailedRequests : ℚ))
      = some { valBits := agg.failedRequestsCounter.valBits
               valInt := (agg.failedRequestsCounter.valInt
                 + res.NumFailedRequests.toNat) % 2 ^ 64 } := by
    rw [hv, counterAdd_natCast agg.failedRequestsCounter m hk hm63, htn]
  have hrun := getResultHandler_accept unmarshal agg r body res _ hm hb hp hadd
  refine ⟨hrun, ?_⟩
  intro hbits hsum
  rw [hrun, htn] at *
  have hlt : agg.failedRequestsCounter.valInt + m < 2 ^ 64 :=
    lt_of_le_of_lt hsum (by norm_num)
  have h1 : float64 ((agg.failedRequestsCounter.valInt + m : ℕ) : ℚ)
      = ((agg.failedRequestsCounter.valInt + m : ℕ) : ℚ) :=
    float64_natCast_small _ hsum
  have h2 : float64 (agg.failedRequestsCounter.valInt : ℚ)
      = (agg.failedRequestsCounter.valInt : ℚ) :=
    float64_natCast_small _ (by omega)
  simp only [counterGet, hbits, zero_add, Nat.mod_eq_of_lt hlt, float64_idem, h1, h2, hmn]
  push_cast
  ring

theorem accepted_result_updates_aggregates_witness :
    getResultHandler exampleUnmarshal exampleAgg
        { Method := "POST", Body := BodyRead.ok exampleBody }
      = { status := 202
          panicked := false
          agg :=
            { failedRequestsCounter :=
                { valBits := exampleAgg.failedRequestsCounter.valBits
                  valInt := (exampleAgg.failedRequestsCounter.valInt + (2 : Int).toNat) % 2 ^ 64 }
              masqueradeDelaySummary := exampleAgg.masqueradeDelaySummary ++ [1 / 8] } } :=
  (accepted_result_updates_aggregates exampleUnmarshal exampleAgg
    { Method := "POST", Body := BodyRead.ok exampleBody } exampleBody
    { ClientID := "default/client-0", NumFailedRequests := 2, MasqueradeDelay := 1 / 8 }
    rfl rfl (if_pos rfl) (by decide) (by norm_num)
    (float64_intCast_small 2 (by decide) (by norm_num))).1

/-- C4: a request whose method is not POST gets 400 whatever its body; a POST whose
body cannot be read gets 500; a POST whose body is read but does not parse as a
`Result` gets 400; in all three cases the handler does not panic and the aggregates
(counter and summary) are unchanged. -/
theorem rejected_request_leaves_aggregates (unmarshal : String → Option Result)
    (agg : Aggregates) (r : Request) :
    (r.Method ≠ "POST" →
        getResultHandler unmarshal agg r = { status := 400, panicked := false, agg := agg })
      ∧ (∀ e, r.Method = "POST" → r.Body = BodyRead.failed e →
        getResultHandler unmarshal agg r = { status := 500, panicked := false, agg := agg })
      ∧ (∀ body, r.Method = "POST" → r.Body = BodyRead.ok body → unmarshal body = none →
        getResultHandler unmarshal agg r = { status := 400, panicked := false, agg := agg }) := by
  refine ⟨?_, ?_, ?_⟩
  · intro hm
    simp [getResultHandler, hm]
  · intro e hm hb
    simp [getResultHandler, hm, hb]
  · intro body hm hb hp
    simp [getResultHandler, hm, hb, hp]

theorem rejected_request_leaves_aggregates_witness :
    getResultHandler exampleUnmarshal exampleAgg
        { Method := "GET", Body := BodyRead.ok exampleBody }
        = { status := 400, panicked := false, agg := exampleAgg }
      ∧ getResultHandler exampleUnmarshal exampleAgg
        { Method := "POST", Body := BodyRead.failed "unexpected EOF" }
        = { status := 500, panicked := false, agg := exampleAgg }
      ∧ getResultHandler exampleUnmarshal exampleAgg
        { Method := "POST", Body := BodyRead.ok "pong" }
        = { status := 400, panicked := false, agg := exampleAgg } :=
  ⟨(rejected_request_leaves_aggregates exampleUnmarshal exampleAgg
      { Method := "GET", Body := BodyRead.ok exampleBody }).1 (by decide),
   (rejected_request_leaves_aggregates exampleUnmarshal exampleAgg
      { Method := "POST", Body := BodyRead.failed "unexpected EOF" }).2.1 _ rfl rfl,
   (rejected_request_leaves_aggregates exampleUnmarshal exampleAgg
      { Method := "POST", Body := BodyRead.ok "pong" }).2.2 _ rfl rfl (by decide)⟩

/-- C9, counterexample: a collector whose counter stands at `2^63` (after one
submission of `NumFailedRequests = 2^63 - 1`, which `float64` takes to `2^63`)
accepts the same submission again; the 64-bit accumulator wraps and the counter
reads 0, below its value before the request. -/
theorem counter_wraps_at_two_pow_64 :
    exampleUnmarshal maxBody
        = some { ClientID := "default/client-0", NumFailedRequests := 9223372036854775807,
                 MasqueradeDelay := 1 / 8 }
      ∧ (getResultHandler exampleUnmarshal freshAgg
          { Method := "POST", Body := BodyRead.ok maxBody }).agg = halfwayAgg
      ∧ (getResultHandler exampleUnmarshal halfwayAgg
          { Method := "POST", Body := BodyRead.ok maxBody }).status = 202
      ∧ (getResultHandler exampleUnmarshal halfwayAgg
          { Method := "POST", Body := BodyRead.ok maxBody }).agg.failedRequestsCounter
          = { valBits := 0, valInt := 0 }
      ∧ counterGet halfwayAgg.failedRequestsCounter = 9223372036854775808
      ∧ counterGet (getResultHandler exampleUnmarshal halfwayAgg
          { Method := "POST", Body := BodyRead.ok maxBody }).agg.failedRequestsCounter = 0
      ∧ ¬ (counterGet halfwayAgg.failedRequestsCounter
            ≤ counterGet (getResultHandler exampleUnmarshal halfwayAgg
                { Method := "POST", Body := BodyRead.ok maxBody }).agg.failedRequestsCounter) := by
  have hadd0 : counterAdd freshAgg.failedRequestsCounter
      (float64 ((9223372036854775807 : ℤ) : ℚ))
      = some { valBits := 0, valInt := 9223372036854775808 } := by
    rw [float64_maxCount, counterAdd_natCast freshAgg.failedRequestsCounter
      9223372036854775808 float64_two_pow_63 (by norm_num)]
    rfl
  have hadd1 : counterAdd halfwayAgg.failedRequestsCounter
      (float64 ((9223372036854775807 : ℤ) : ℚ))
      = some { valBits := 0, valInt := 0 } := by
    rw [float64_maxCount, counterAdd_natCast halfwayAgg.failedRequestsCounter
      9223372036854775808 float64_two_pow_63 (by norm_num)]
    rfl
  have hrun0 : getResultHandler exampleUnmarshal freshAgg
      { Method := "POST", Body := BodyRead.ok maxBody }
      = { status := 202, panicked := false, agg := halfwayAgg } :=
    getResultHandler_accept exampleUnmarshal freshAgg _ maxBody _ _ rfl rfl
      exampleUnmarshal_maxBody hadd0
  have hrun1 : getResultHandler exampleUnmarshal halfwayAgg
      { Method := "POST", Body := BodyRead.ok maxBody }
      = { status := 202, panicked := false,
          agg := { failedRequestsCounter := { valBits := 0, valInt := 0 },
                   masqueradeDelaySummary := [1 / 8, 1 / 8] } } :=
    getResultHandler_accept exampleUnmarshal halfwayAgg _ maxBody _ _ rfl rfl
      exampleUnmarshal_maxBody hadd1
  have hg0 : counterGet halfwayAgg.failedRequestsCounter = 9223372036854775808 := by
    simp only [counterGet, halfwayAgg, float64_two_pow_63, zero_add]
    norm_num
  have hg1 : counterGet { valBits := 0, valInt := 0 } = 0 := by
    simp [counterGet, float64_zero]
  rw [hrun0, hrun1]
  refine ⟨exampleUnmarshal_maxBody, rfl, rfl, rfl, hg0, hg1, ?_⟩
  rw [hg0, hg1]
  norm_num

/-- C9, amended: whatever the method and the body of a request, the value of the
counter after the handler has run is at least its value before, provided the 64-bit
accumulator does not wrap, that is, provided its content plus the `float64` of the
count stays below `2^64` when the request is a POST whose body parses. A negative
count makes `Add` panic and leaves the aggregates as they were. -/
theorem counter_never_decreases (unmarshal : String → Option Result) (agg : Aggregates)
    (r : Request)
    (hfit : ∀ body res, r.Method = "POST" → r.Body = BodyRead.ok body →
      unmarshal body = some res →
      (agg.failedRequestsCounter.valInt : ℚ) + float64 (res.NumFailedRequests : ℚ) < 2 ^ 64) :
    counterGet agg.failedRequestsCounter
        ≤ counterGet (getResultHandler unmarshal agg r).agg.failedRequestsCounter
      ∧ (∀ body res, r.Method = "POST" → r.Body = BodyRead.ok body →
          unmarshal body = some res → res.NumFailedRequests < 0 →
          getResultHandler unmarshal agg r = { status := 202, panicked := true, agg := agg }) := by
  constructor
  · unfold getResultHandler
    by_cases hm : r.Method = "POST"
    · cases hb : r.Body with
      | failed e => simp [hm]
      | ok body =>
        cases hp : unmarshal body with
        | none => simp [hm, hp]
        | some res =>
          rcases lt_or_le res.NumFailedRequests 0 with hneg | hnn
          · have hq : ((res.NumFailedRequests : ℤ) : ℚ) < 0 := by exact_mod_cast hneg
            simp [hm, hp, counterAdd_neg _ _ (float64_neg_of_neg hq)]
          · obtain ⟨k, hk1, hk2⟩ := float64_count res.NumFailedRequests hnn
            have hsum := hfit body res hm hb hp
            rw [hk1] at hsum
            have hsumN : agg.failedRequestsCounter.valInt + k < 2 ^ 64 := by
              exact_mod_cast hsum
            have hadd := counterAdd_natCast agg.failedRequestsCounter k hk2 (by omega)
            simp only [hm, hp, hk1, hadd, Nat.mod_eq_of_lt hsumN, ne_eq, not_true_eq_false,
              if_false]
            exact counterGet_mono agg.failedRequestsCounter _ _ (Nat.le_add_right _ _)
    · simp [hm]
  · intro body res hm hb hp hneg
    have hq : ((res.NumFailedRequests : ℤ) : ℚ) < 0 := by exact_mod_cast hneg
    simp [getResultHandler, hm, hb, hp, counterAdd_neg _ _ (float64_neg_of_neg hq)]

theorem counter_never_decreases_witness :
    counterGet exampleAgg.failedRequestsCounter
      ≤ counterGet (getResultHandler exampleUnmarshal exampleAgg
          { Method := "POST", Body := BodyRead.ok exampleBody }).agg.failedRequestsCounter :=
  (counter_never_decreases exampleUnmarshal exampleAgg
    { Method := "POST", Body := BodyRead.ok exampleBody }
    (by
      intro body res _ hb hp
      have hbody : exampleBody = body := by simpa using hb
      subst hbody
      have hres : res = { ClientID := "default/client-0", NumFailedRequests := 2,
                          MasqueradeDelay := 1 / 8 } := by
        simpa [exampleUnmarshal] using hp.symm
      subst hres
      have h2 : float64 (((2 : ℤ) : ℚ)) = 2 := by
        simpa using float64_intCast_small 2 (by norm_num) (by norm_num)
      rw [h2]
      simp only [exampleAgg]
      norm_num)).1

/-- A submission with `NumFailedRequests = -5`: the handler has written 202 when
`Add` panics, and neither aggregate has changed. -/
theorem negative_count_panics :
    getResultHandler exampleUnmarshal exampleAgg
        { Method := "POST", Body := BodyRead.ok negativeBody }
      = { status := 202, panicked := true, agg := exampleAgg } := by
  have hu : exampleUnmarshal negativeBody
      = some { ClientID := "default/client-0", NumFailedRequests := -5,
               MasqueradeDelay := 1 / 8 } := by
    simp [exampleUnmarshal, exampleBody, negativeBody]
  have hq : (((-5 : ℤ)) : ℚ) < 0 := by norm_num
  simp only [getResultHandler, hu, counterAdd_neg _ _ (float64_neg_of_neg hq)]
  simp

end Scaffolding
